import Mathlib

/-!
Verification development for the battle engine of the rpg repository.

The engine lives in src/server/game/battleManager.js (turn order, command
execution, lifecycle), src/server/game/abilities.js and constants.js (the
static ability catalog and element tables), and the server half of
public/js/shared.js (validateBattleCommand).

Embedding conventions:
- JS numbers are modeled as integers (the data model declares every stat a
  non-negative integer, and the ability catalog contains only integers).
  The fractional combat arithmetic (x0.6, x1.1 and the elemental
  multipliers 1.25 / 0.75 / 0.9) is computed exactly: amounts are integer
  floor divisions, proven equal to the rational floor formulas of the spec
  by the bridge lemmas healAmount_eq_floor / damageAmount_eq_floor below.
- JS objects are modeled as records; mutation becomes explicit state
  passing.  Aliasing through live object references (the JS code mutates
  units found by id) is rendered by re-resolving units by id from the
  updated state, which agrees with reference semantics because lookups and
  updates both use first-match-by-id.
- Strings are Lean strings.  The engine only uses trim-truthiness,
  toUpperCase, equality and localeCompare of ASCII identifiers; the first
  three are rendered by structural char-list functions below and the
  comparator by code-point lexicographic order.
-/

/-- JS truthiness of s.trim(): the string contains a non-whitespace char. -/
def strTrimTruthy (s : String) : Bool :=
  s.data.any (fun c => !c.isWhitespace)

/-- Rendering of toUpperCase for the ASCII element keys. -/
def strUpper (s : String) : String :=
  ⟨s.data.map Char.toUpper⟩

/-- Code-point lexicographic less-or-equal on char lists (rendering of the
localeCompare tie-break in calculateInitialTurnOrder for ASCII ids). -/
def lexLeChars : List Char → List Char → Bool
  | [], _ => true
  | _ :: _, [] => false
  | a :: as, b :: bs =>
    if a.toNat < b.toNat then true
    else if b.toNat < a.toNat then false
    else lexLeChars as bs

/-- Lexicographic less-or-equal on strings. -/
def tieLe (a b : String) : Bool :=
  lexLeChars a.data b.data

/-- The element name table from constants.js (ELEMENTS maps each name to
itself; membership is what hasOwnProperty checks in getUnitElement). -/
def ELEMENT_NAMES : List String :=
  ["LIGHT", "SHADOW", "FIRE", "WATER", "EARTH", "WIND", "NULL"]

/-- ELEMENTAL_WEAKNESS from constants.js: maps each element to the element
it is weak against; undefined keys give none. -/
def ELEMENTAL_WEAKNESS (e : String) : Option String :=
  if e = "FIRE" then some "WATER"
  else if e = "WATER" then some "EARTH"
  else if e = "EARTH" then some "WIND"
  else if e = "WIND" then some "FIRE"
  else if e = "LIGHT" then some "SHADOW"
  else if e = "SHADOW" then some "LIGHT"
  else if e = "NULL" then some "NULL"
  else none

/-- The Stats value record of models.js (hp, maxHp, mp, maxMp, strength,
defense, magic, speed, spirit, luck), modeled with integer values. -/
structure Stats where
  hp : ℤ
  maxHp : ℤ
  mp : ℤ
  maxMp : ℤ
  strength : ℤ
  defense : ℤ
  magic : ℤ
  speed : ℤ
  spirit : ℤ
  luck : ℤ
deriving DecidableEq

/-- A combatant as the battle manager sees it: a party Character or an
enemy record.  Party members have element = none (only enemies carry an
explicit element); crystalResonance is the element-affinity map used for
inference (entries in object insertion order). -/
structure BattleUnit where
  id : String
  name : String
  element : Option String
  crystalResonance : List (String × ℤ)
  stats : Stats
  statusEffects : List String
deriving DecidableEq

/-- An ability catalog entry from abilities.js. -/
structure Ability where
  id : String
  name : String
  element : String
  mpCost : ℤ
  targetType : String
  power : ℤ
  statusEffect : Option String
  classRestriction : Option (List String)
  levelRequirement : ℤ
deriving DecidableEq

/-- The static ABILITIES catalog of abilities.js, loaded once. -/
def ABILITIES : List Ability :=
  [ ⟨"basic_attack", "Attack", "NULL", 0, "enemy_single", 4, none, none, 1⟩,
    ⟨"defend", "Defend", "NULL", 0, "self", 0, none, none, 1⟩,
    ⟨"flee", "Flee", "NULL", 0, "self", 0, none, none, 1⟩,
    ⟨"crystalborne_strike", "Strike", "NULL", 0, "enemy_single", 8, none, some ["CRYSTALBORNE"], 1⟩,
    ⟨"crystalborne_lumen_arc", "Lumen Arc", "LIGHT", 4, "enemy_single", 11, none, some ["CRYSTALBORNE"], 1⟩,
    ⟨"sage_mend", "Mend", "LIGHT", 5, "ally_single", 12, none, some ["SAGE"], 1⟩,
    ⟨"sage_barrier", "Barrier", "LIGHT", 6, "ally_single", 0, none, some ["SAGE"], 2⟩,
    ⟨"sage_scan", "Scan", "NULL", 2, "enemy_single", 0, none, some ["SAGE"], 1⟩,
    ⟨"knight_taunt", "Taunt", "NULL", 3, "enemy_all", 0, none, some ["KNIGHT"], 1⟩,
    ⟨"knight_heavy_strike", "Heavy Strike", "NULL", 2, "enemy_single", 14, none, some ["KNIGHT"], 1⟩,
    ⟨"aeromancer_gale_sweep", "Gale Sweep", "WIND", 6, "enemy_all", 9, none, some ["AEROMANCER"], 1⟩,
    ⟨"aeromancer_chain_spark", "Chain Spark", "WIND", 5, "enemy_single", 13, none, some ["AEROMANCER"], 2⟩,
    ⟨"aeromancer_haste", "Haste", "WIND", 4, "ally_single", 0, none, some ["AEROMANCER"], 1⟩,
    ⟨"umbramancer_venom_hex", "Venom Hex", "SHADOW", 4, "enemy_single", 6, some "POISON", some ["UMBRAMANCER"], 1⟩,
    ⟨"umbramancer_sunder_ward", "Sunder Ward", "SHADOW", 5, "enemy_single", 8, some "WEAKEN", some ["UMBRAMANCER"], 2⟩,
    ⟨"crystal_knight_crystal_blade", "Crystal Blade", "LIGHT", 3, "enemy_single", 12, none, some ["CRYSTAL_KNIGHT"], 1⟩,
    ⟨"crystal_knight_prismatic_aegis", "Prismatic Aegis", "LIGHT", 7, "party", 0, none, some ["CRYSTAL_KNIGHT"], 2⟩ ]

/-- ABILITIES_BY_ID lookup (the reduce-built index; ids are unique so
first match agrees with the JS object index). -/
def lookupAbilityById (aid : Option String) : Option Ability :=
  match aid with
  | some s => ABILITIES.find? (fun a => a.id == s)
  | none => none

/-- getUnitHp of battleManager.js (stats are always numeric here). -/
def getUnitHp (u : BattleUnit) : ℤ :=
  u.stats.hp

/-- isAlive of battleManager.js. -/
def isAlive (u : BattleUnit) : Bool :=
  0 < getUnitHp u

/-- getUnitSpeed of battleManager.js. -/
def getUnitSpeed (u : BattleUnit) : ℤ :=
  u.stats.speed

/-- getUnitName of battleManager.js, applied to an optional lookup result:
a unit with a non-blank name is called by name, else by id; a missing unit
is called Unknown. -/
def getUnitName (u : Option BattleUnit) : String :=
  match u with
  | some u => if strTrimTruthy u.name then u.name else u.id
  | none => "Unknown"

/-- One step of the best-entry scan in getUnitElement: keep the entry with
the strictly largest weight whose uppercased key is an element name. -/
def resonanceStep (acc : Option (String × ℤ)) (kv : String × ℤ) : Option (String × ℤ) :=
  let normalized := strUpper kv.1
  if ELEMENT_NAMES.contains normalized then
    match acc with
    | none => some (normalized, kv.2)
    | some best => if best.2 < kv.2 then some (normalized, kv.2) else some best
  else acc

/-- getUnitElement of battleManager.js: an explicit non-blank element wins,
else the highest-weighted crystalResonance key that names an element. -/
def getUnitElement (u : BattleUnit) : Option String :=
  match u.element with
  | some s =>
    if strTrimTruthy s then some s
    else (u.crystalResonance.foldl resonanceStep none).map (fun best => best.1)
  | none => (u.crystalResonance.foldl resonanceStep none).map (fun best => best.1)

/-- elementalMultiplier of battleManager.js, exactly as written there (the
source returns the JS numbers 1.0 / 1.25 / 0.75 / 0.9, here exact
rationals).  A falsy ability element is the empty string. -/
def elementalMultiplier (abilityElement : String) (targetElement : Option String) : ℚ :=
  if abilityElement = "" ∨ abilityElement = "NULL" then 1
  else
    match targetElement with
    | none => 1
    | some t =>
      if t = "" ∨ t = "NULL" then 1
      else if ELEMENTAL_WEAKNESS t = some abilityElement then 1.25
      else if ELEMENTAL_WEAKNESS abilityElement = some t then 0.75
      else if abilityElement = t then 0.9
      else 1

/-- The same multiplier as an exact numerator / denominator pair, used by
the executable amount computations. -/
def elementalMultiplierND (abilityElement : String) (targetElement : Option String) : ℤ × ℕ :=
  if abilityElement = "" ∨ abilityElement = "NULL" then (1, 1)
  else
    match targetElement with
    | none => (1, 1)
    | some t =>
      if t = "" ∨ t = "NULL" then (1, 1)
      else if ELEMENTAL_WEAKNESS t = some abilityElement then (5, 4)
      else if ELEMENTAL_WEAKNESS abilityElement = some t then (3, 4)
      else if abilityElement = t then (9, 10)
      else (1, 1)

theorem elementalMultiplierND_den_pos (ae : String) (te : Option String) :
    0 < (elementalMultiplierND ae te).2 := by
  unfold elementalMultiplierND
  split
  · exact Nat.one_pos
  · match te with
    | none => exact Nat.one_pos
    | some t => dsimp only; split <;> [skip; split <;> [skip; split <;> [skip; split]]] <;> norm_num

theorem elementalMultiplier_eq_ND (ae : String) (te : Option String) :
    elementalMultiplier ae te =
      ((elementalMultiplierND ae te).1 : ℚ) / ((elementalMultiplierND ae te).2 : ℚ) := by
  unfold elementalMultiplier elementalMultiplierND
  split
  · norm_num
  · match te with
    | none => norm_num
    | some t => dsimp only; split <;> [skip; split <;> [skip; split <;> [skip; split]]] <;> norm_num

/-- The healing amount of executeCommand, computed exactly:
floor((power + magic * 1.1) * (m1 / m2)) as an integer division, with the
outer max 1. -/
def healAmount (power mag : ℤ) (m : ℤ × ℕ) : ℤ :=
  max 1 (((power * 10 + mag * 11) * m.1) / (10 * (m.2 : ℤ)))

/-- The damage amount of executeCommand, computed exactly:
floor((offense - mitigationStat * 0.6) * (m1 / m2)) as an integer
division, with the outer max 1. -/
def damageAmount (offense mitigationStat : ℤ) (m : ℤ × ℕ) : ℤ :=
  max 1 (((offense * 10 - mitigationStat * 6) * m.1) / (10 * (m.2 : ℤ)))

theorem healAmount_eq_floor (power mag : ℤ) (m : ℤ × ℕ) (hm : 0 < m.2) :
    healAmount power mag m =
      max 1 ⌊((power : ℚ) + (mag : ℚ) * 1.1) * ((m.1 : ℚ) / (m.2 : ℚ))⌋ := by
  have h1 : ((power : ℚ) + (mag : ℚ) * 1.1) * ((m.1 : ℚ) / (m.2 : ℚ)) =
      ((((power * 10 + mag * 11) * m.1 : ℤ) : ℚ) / ((10 * m.2 : ℕ) : ℚ)) := by
    have hd0 : ((m.2 : ℚ)) ≠ 0 := by positivity
    push_cast
    field_simp
    ring
  rw [h1, Rat.floor_intCast_div_natCast, healAmount]
  norm_cast

theorem damageAmount_eq_floor (offense mitigationStat : ℤ) (m : ℤ × ℕ) (hm : 0 < m.2) :
    damageAmount offense mitigationStat m =
      max 1 ⌊((offense : ℚ) - (mitigationStat : ℚ) * 0.6) * ((m.1 : ℚ) / (m.2 : ℚ))⌋ := by
  have h1 : ((offense : ℚ) - (mitigationStat : ℚ) * 0.6) * ((m.1 : ℚ) / (m.2 : ℚ)) =
      ((((offense * 10 - mitigationStat * 6) * m.1 : ℤ) : ℚ) / ((10 * m.2 : ℕ) : ℚ)) := by
    have hd0 : ((m.2 : ℚ)) ≠ 0 := by positivity
    push_cast
    field_simp
    ring
  rw [h1, Rat.floor_intCast_div_natCast, damageAmount]
  norm_cast

/-- clampHp of battleManager.js: clamp hp into the range 0 .. maxHp. -/
def clampHp (s : Stats) : Stats :=
  { s with hp := max 0 (min s.maxHp s.hp) }

/-- The kind tag of a turn-order reference. -/
inductive TurnKind
  | party
  | enemy
deriving DecidableEq

/-- A TurnRef: a kind plus an id, resolved by lookup, never a direct
reference. -/
structure TurnRef where
  kind : TurnKind
  id : String
deriving DecidableEq

/-- The battle state machine tags. -/
inductive BattlePhase
  | pending
  | in_progress
  | victory
  | defeat
deriving DecidableEq

/-- The Battle aggregate of battleManager.js.  The party that the JS code
keeps in the partyByBattleId side map is embedded here as the playerId and
members fields, so that the battle functions are self-contained. -/
structure Battle where
  id : String
  partyId : String
  playerId : String
  members : List BattleUnit
  enemies : List BattleUnit
  turnOrder : List TurnRef
  activeTurnIndex : ℕ
  log : List String
  state : BattlePhase
deriving DecidableEq

/-- A battle command: { type, sourceId, targetId, abilityId }, each field
possibly absent. -/
structure BattleCommand where
  type : Option String
  sourceId : Option String
  targetId : Option String
  abilityId : Option String
deriving DecidableEq

/-- findUnitInBattle of battleManager.js (and unitById of shared.js):
first matching party member, else first matching enemy, with its kind. -/
def findUnitInBattle (b : Battle) (uid : Option String) : Option (TurnKind × BattleUnit) :=
  match b.members.find? (fun m => some m.id == uid) with
  | some m => some (TurnKind.party, m)
  | none =>
    match b.enemies.find? (fun e => some e.id == uid) with
    | some e => some (TurnKind.enemy, e)
    | none => none

/-- Replace the first element satisfying p by its image under f (the
rendering of mutating the object found by a first-match search). -/
def updateFirst (p : BattleUnit → Bool) (f : BattleUnit → BattleUnit) : List BattleUnit → List BattleUnit
  | [] => []
  | x :: xs => if p x then f x :: xs else x :: updateFirst p f xs

/-- Apply f to the unit that findUnitInBattle resolves for uid: the first
matching party member if any, else the first matching enemy. -/
def updateUnitInBattle (b : Battle) (uid : Option String) (f : BattleUnit → BattleUnit) : Battle :=
  if (b.members.find? (fun m => some m.id == uid)).isSome then
    { b with members := updateFirst (fun m => some m.id == uid) f b.members }
  else
    { b with enemies := updateFirst (fun e => some e.id == uid) f b.enemies }

/-- The active turn reference: turnOrder[activeTurnIndex % turnOrder.length]
(none exactly when turnOrder is empty, as in the JS undefined lookup). -/
def activeTurnRef (b : Battle) : Option TurnRef :=
  b.turnOrder[b.activeTurnIndex % b.turnOrder.length]?

/-- One decorated entry of calculateInitialTurnOrder: the ref, the speed,
and the p_ / e_ prefixed tie-break key. -/
structure TurnEntry where
  ref : TurnRef
  speed : ℤ
  tie : String
deriving DecidableEq

/-- The comparator of calculateInitialTurnOrder as a relation: descending
by speed, ties broken by the tie key ascending. -/
def turnEntryLE (a b : TurnEntry) : Prop :=
  b.speed < a.speed ∨ (a.speed = b.speed ∧ tieLe a.tie b.tie = true)

instance : DecidableRel turnEntryLE := fun a b => by
  unfold turnEntryLE
  infer_instance

/-- The decorated entry list of calculateInitialTurnOrder: living party
members first, then living enemies, in roster order. -/
def turnOrderEntries (members enemies : List BattleUnit) : List TurnEntry :=
  (members.filter isAlive).map
      (fun m => ⟨⟨TurnKind.party, m.id⟩, getUnitSpeed m, "p_" ++ m.id⟩)
    ++ (enemies.filter isAlive).map
      (fun e => ⟨⟨TurnKind.enemy, e.id⟩, getUnitSpeed e, "e_" ++ e.id⟩)

/-- The sorted entry list (entries.sort(comparator) in the source; the JS
sort is stable and the comparator is a total preorder, rendered by
insertion sort). -/
def sortedTurnEntries (members enemies : List BattleUnit) : List TurnEntry :=
  (turnOrderEntries members enemies).insertionSort turnEntryLE

/-- calculateInitialTurnOrder of battleManager.js. -/
def calculateInitialTurnOrder (members enemies : List BattleUnit) : List TurnRef :=
  (sortedTurnEntries members enemies).map (fun e => e.ref)

/-- createBattle of battleManager.js: build the initial order, seed the
log, and start in_progress when anyone can act, else defeat.  The random
battle id is a parameter; the party reference of the side map is embedded
as playerId / members. -/
def createBattle (bid partyId playerId : String) (members enemies : List BattleUnit) : Battle :=
  let turnOrder := calculateInitialTurnOrder members enemies
  let phase := if 0 < turnOrder.length then BattlePhase.in_progress else BattlePhase.defeat
  { id := bid
    partyId := partyId
    playerId := playerId
    members := members
    enemies := enemies
    turnOrder := turnOrder
    activeTurnIndex := 0
    log :=
      if phase = BattlePhase.in_progress then
        ["Battle " ++ bid ++ " created.", "Battle started."]
      else ["Battle " ++ bid ++ " created."]
    state := phase }

/-- getActiveUnit of battleManager.js. -/
def getActiveUnit (b : Battle) : Option BattleUnit :=
  match activeTurnRef b with
  | none => none
  | some ref =>
    match ref.kind with
    | TurnKind.enemy => b.enemies.find? (fun e => e.id == ref.id)
    | TurnKind.party => b.members.find? (fun m => m.id == ref.id)

/-- recomputeState of battleManager.js: defeat when no party member is
alive, else victory when no enemy is alive, else in_progress. -/
def recomputeState (b : Battle) : BattlePhase :=
  if b.members.any isAlive then
    if b.enemies.any isAlive then BattlePhase.in_progress else BattlePhase.victory
  else BattlePhase.defeat

/-- pruneDeadFromTurnOrder of battleManager.js: drop refs of dead units;
reset the index to 0 when the order empties, else reduce it mod length. -/
def pruneDeadFromTurnOrder (b : Battle) : Battle :=
  let alivePartyIds := (b.members.filter isAlive).map (fun m => m.id)
  let aliveEnemyIds := (b.enemies.filter isAlive).map (fun e => e.id)
  let newOrder := b.turnOrder.filter (fun ref =>
    match ref.kind with
    | TurnKind.party => alivePartyIds.contains ref.id
    | TurnKind.enemy => aliveEnemyIds.contains ref.id)
  { b with
    turnOrder := newOrder
    activeTurnIndex := if newOrder.length = 0 then 0 else b.activeTurnIndex % newOrder.length }

/-- The heal / damage / status-only classifier used by executeCommand:
power > 0 with a friendly target type heals, power > 0 otherwise damages. -/
def isHealingTargetType (tt : String) : Bool :=
  tt == "ally_single" || tt == "party" || tt == "self"

/-- The amount executeCommand computes for an ability between a source and
a target (0 for power-0 abilities, which only carry status effects). -/
def execAmount (ability : Ability) (src tgt : BattleUnit) : ℤ :=
  let m := elementalMultiplierND ability.element (getUnitElement tgt)
  if 0 < ability.power ∧ isHealingTargetType ability.targetType = true then
    healAmount ability.power src.stats.magic m
  else if 0 < ability.power then
    damageAmount
      ((if ability.element = "NULL" then src.stats.strength else src.stats.magic) + ability.power)
      (if ability.element = "NULL" then tgt.stats.defense else tgt.stats.spirit)
      m
  else 0

/-- The MP deduction applied to a unit: mp := max 0 (mp - mpCost), only
when mpCost > 0. -/
def mpApply (ability : Ability) (u : BattleUnit) : BattleUnit :=
  if 0 < ability.mpCost then
    { u with stats := { u.stats with mp := max 0 (u.stats.mp - ability.mpCost) } }
  else u

/-- The MP-deduction block of executeCommand: deduct the cost from the
source (found by id, as the JS mutation through the live reference). -/
def mpStage (b : Battle) (cmd : BattleCommand) (ability : Ability) : Battle :=
  if 0 < ability.mpCost then
    updateUnitInBattle b cmd.sourceId
      (fun u => { u with stats := { u.stats with mp := max 0 (u.stats.mp - ability.mpCost) } })
  else b

/-- The hp effect applied to the target unit: heal, damage, or nothing,
by the power / targetType classification of executeCommand. -/
def hpApply (ability : Ability) (amount : ℤ) (u : BattleUnit) : BattleUnit :=
  if 0 < ability.power ∧ isHealingTargetType ability.targetType = true then
    { u with stats := clampHp { u.stats with hp := u.stats.hp + amount } }
  else if 0 < ability.power then
    { u with stats := clampHp { u.stats with hp := max 0 (u.stats.hp - amount) } }
  else u

/-- The heal / damage block of executeCommand, applied to the target found
by id. -/
def effectStage (b1 : Battle) (cmd : BattleCommand) (ability : Ability) (amount : ℤ) : Battle :=
  if 0 < ability.power then updateUnitInBattle b1 cmd.targetId (hpApply ability amount)
  else b1

/-- The status application of executeCommand on one unit: add the tag if
not already present. -/
def statusApply (ability : Ability) (u : BattleUnit) : BattleUnit :=
  match ability.statusEffect with
  | some se =>
    if u.statusEffects.contains se then u else { u with statusEffects := u.statusEffects ++ [se] }
  | none => u

/-- The status-effect block of executeCommand, applied to the target found
by id. -/
def statusStage (b2 : Battle) (cmd : BattleCommand) (ability : Ability) : Battle :=
  match ability.statusEffect with
  | some _ => updateUnitInBattle b2 cmd.targetId (statusApply ability)
  | none => b2

/-- The action log line of executeCommand. -/
def actionLogLine (ability : Ability) (amount : ℤ) (sourceName targetName : String) : String :=
  let verb := if 0 < ability.power ∧ isHealingTargetType ability.targetType = true then "cast" else "used"
  let deltaStr :=
    if 0 < amount then
      (if isHealingTargetType ability.targetType then " +" ++ toString amount ++ " HP"
       else " -" ++ toString amount ++ " HP")
    else ""
  let statusPart :=
    match ability.statusEffect with
    | some se => " (" ++ se ++ ")"
    | none => ""
  sourceName ++ " " ++ verb ++ " " ++ ability.name ++ " on " ++ targetName ++ deltaStr ++ statusPart ++ "."

/-- The cleanup tail of executeCommand: prune the dead, recompute the
terminal state and, when it changed, record it with a Victory! / Defeat.
log line. -/
def endOfActionStage (b4 : Battle) : Battle :=
  let b5 := pruneDeadFromTurnOrder b4
  let nextState := recomputeState b5
  if nextState ≠ b5.state then
    { b5 with
      state := nextState
      log := b5.log ++
        (if nextState = BattlePhase.victory then ["Victory!"]
         else if nextState = BattlePhase.defeat then ["Defeat."]
         else []) }
  else b5

/-- The resolution tail of executeCommand (after the dispatcher checks):
MP deduction, heal / damage, status application, the action log line, the
dead-pruning and the terminal-state recomputation, in source order.  The
JS code mutates the units through live references; here the source and
target are re-resolved by id from the updated state, which is the same
thing because lookup and update agree on first-match-by-id. -/
def executeResolved (b : Battle) (cmd : BattleCommand) (ability : Ability)
    (sourceFound targetFound : TurnKind × BattleUnit) : Battle :=
  let source := sourceFound.2
  if 0 < ability.mpCost ∧ source.stats.mp < ability.mpCost then
    { b with log := b.log ++ [getUnitName (some source) ++ " tried " ++ ability.name ++ " but lacked MP."] }
  else
    let b1 := mpStage b cmd ability
    let source1 := match findUnitInBattle b1 cmd.sourceId with
      | some f => f.2
      | none => source
    let target1 := match findUnitInBattle b1 cmd.targetId with
      | some f => f.2
      | none => targetFound.2
    let amount := execAmount ability source1 target1
    let b3 := statusStage (effectStage b1 cmd ability amount) cmd ability
    let b4 := { b3 with
      log := b3.log ++ [actionLogLine ability amount (getUnitName (some source1)) (getUnitName (some target1))] }
    endOfActionStage b4

/-- executeCommand of battleManager.js: no-op outside in_progress, unknown
ability and not-active-unit and missing-unit soft failures, the flee
special case, then the resolution tail. -/
def executeCommand (b : Battle) (cmd : BattleCommand) : Battle :=
  if b.state ≠ BattlePhase.in_progress then b
  else
    match lookupAbilityById cmd.abilityId with
    | none => { b with log := b.log ++ ["Invalid command: unknown ability."] }
    | some ability =>
      if cmd.abilityId = some "flee" then
        { b with
          log := b.log ++ [getUnitName ((findUnitInBattle b cmd.sourceId).map (fun f => f.2)) ++ " fled."]
          state := BattlePhase.defeat }
      else
        match activeTurnRef b with
        | none => { b with log := b.log ++ ["Invalid command: not active unit."] }
        | some activeRef =>
          if cmd.sourceId ≠ some activeRef.id then
            { b with log := b.log ++ ["Invalid command: not active unit."] }
          else
            match findUnitInBattle b cmd.sourceId, findUnitInBattle b cmd.targetId with
            | some sourceFound, some targetFound => executeResolved b cmd ability sourceFound targetFound
            | some _, none => { b with log := b.log ++ ["Invalid command: missing source/target."] }
            | none, _ => { b with log := b.log ++ ["Invalid command: missing source/target."] }

/-- The stale-reference safety loop at the end of advanceTurn, with fuel
turnOrder.length as in the JS for loop. -/
def advanceTurnLoop : ℕ → Battle → Battle
  | 0, b => b
  | n + 1, b =>
    match getActiveUnit b with
    | some u =>
      if isAlive u then b
      else advanceTurnLoop n { b with activeTurnIndex := (b.activeTurnIndex + 1) % b.turnOrder.length }
    | none => advanceTurnLoop n { b with activeTurnIndex := (b.activeTurnIndex + 1) % b.turnOrder.length }

/-- advanceTurn of battleManager.js. -/
def advanceTurn (b : Battle) : Battle :=
  if b.state ≠ BattlePhase.in_progress then b
  else
    let b1 := pruneDeadFromTurnOrder b
    let nextState := recomputeState b1
    if nextState ≠ BattlePhase.in_progress then
      { b1 with
        state := nextState
        log := b1.log ++ [if nextState = BattlePhase.victory then "Victory!" else "Defeat."] }
    else if b1.turnOrder.length = 0 then
      { b1 with state := BattlePhase.defeat, log := b1.log ++ ["Defeat."] }
    else
      advanceTurnLoop b1.turnOrder.length
        { b1 with activeTurnIndex := (b1.activeTurnIndex + 1) % b1.turnOrder.length }

/-- A validator verdict: { ok, reason }. -/
structure CommandVerdict where
  ok : Bool
  reason : Option String
deriving DecidableEq

/-- validateBattleCommand of shared.js: the pure pre-execution check.  It
only returns a verdict; the battle and party are untouched by type. -/
def validateBattleCommand (b : Battle) (playerId : String) (cmd : BattleCommand) : CommandVerdict :=
  if b.state ≠ BattlePhase.in_progress then ⟨false, some "battle not in progress"⟩
  else if b.turnOrder.length = 0 then ⟨false, some "no turn order"⟩
  else
    match activeTurnRef b with
    | none => ⟨false, some "not player turn"⟩
    | some activeRef =>
      if activeRef.kind ≠ TurnKind.party then ⟨false, some "not player turn"⟩
      else if b.playerId ≠ playerId then ⟨false, some "battle not owned by player"⟩
      else
        match cmd.sourceId with
        | none => ⟨false, some "invalid source for active turn"⟩
        | some sourceId =>
          if sourceId ≠ activeRef.id then ⟨false, some "invalid source for active turn"⟩
          else
            match lookupAbilityById cmd.abilityId with
            | none => ⟨false, some "unknown ability"⟩
            | some ability =>
              match findUnitInBattle b (some sourceId) with
              | none => ⟨false, some "missing source"⟩
              | some sourceFound =>
                if 0 < ability.mpCost ∧ sourceFound.2.stats.mp < ability.mpCost then
                  ⟨false, some "not enough MP"⟩
                else
                  match (if ability.targetType = "self" then some sourceId else cmd.targetId) with
                  | none => ⟨false, some "missing target"⟩
                  | some tid =>
                    match findUnitInBattle b (some tid) with
                    | none => ⟨false, some "target not found"⟩
                    | some targetFound =>
                      if ability.targetType = "enemy_single" ∧ targetFound.1 ≠ TurnKind.enemy then
                        ⟨false, some "target must be enemy"⟩
                      else if ability.targetType = "ally_single" ∧ targetFound.1 ≠ TurnKind.party then
                        ⟨false, some "target must be ally"⟩
                      else if ability.targetType = "party" ∨ ability.targetType = "enemy_all" then
                        ⟨false, some "unsupported target type"⟩
                      else ⟨true, none⟩

/-- An engine operation, for stating properties of arbitrary call
sequences. -/
inductive BattleOp
  | exec (cmd : BattleCommand)
  | advance
deriving DecidableEq

/-- Apply one operation. -/
def applyBattleOp (b : Battle) (op : BattleOp) : Battle :=
  match op with
  | BattleOp.exec cmd => executeCommand b cmd
  | BattleOp.advance => advanceTurn b

/-- Apply a sequence of operations, left to right. -/
def applyBattleOps (ops : List BattleOp) (b : Battle) : Battle :=
  ops.foldl applyBattleOp b

/-! Small projection lemmas: the cleanup and update functions do not touch
the fields they are not about. -/

theorem members_pruneDead (b : Battle) : (pruneDeadFromTurnOrder b).members = b.members := rfl

theorem enemies_pruneDead (b : Battle) : (pruneDeadFromTurnOrder b).enemies = b.enemies := rfl

theorem log_pruneDead (b : Battle) : (pruneDeadFromTurnOrder b).log = b.log := rfl

theorem state_pruneDead (b : Battle) : (pruneDeadFromTurnOrder b).state = b.state := rfl

theorem state_updateUnit (b : Battle) (uid : Option String) (f : BattleUnit → BattleUnit) :
    (updateUnitInBattle b uid f).state = b.state := by
  unfold updateUnitInBattle
  split <;> rfl

theorem log_updateUnit (b : Battle) (uid : Option String) (f : BattleUnit → BattleUnit) :
    (updateUnitInBattle b uid f).log = b.log := by
  unfold updateUnitInBattle
  split <;> rfl

theorem turnOrder_updateUnit (b : Battle) (uid : Option String) (f : BattleUnit → BattleUnit) :
    (updateUnitInBattle b uid f).turnOrder = b.turnOrder := by
  unfold updateUnitInBattle
  split <;> rfl

theorem activeTurnIndex_updateUnit (b : Battle) (uid : Option String) (f : BattleUnit → BattleUnit) :
    (updateUnitInBattle b uid f).activeTurnIndex = b.activeTurnIndex := by
  unfold updateUnitInBattle
  split <;> rfl

theorem findUnit_congr {b₁ b₂ : Battle} (h1 : b₁.members = b₂.members)
    (h2 : b₁.enemies = b₂.enemies) (uid : Option String) :
    findUnitInBattle b₁ uid = findUnitInBattle b₂ uid := by
  unfold findUnitInBattle
  rw [h1, h2]

theorem recomputeState_congr {b₁ b₂ : Battle} (h1 : b₁.members = b₂.members)
    (h2 : b₁.enemies = b₂.enemies) : recomputeState b₁ = recomputeState b₂ := by
  unfold recomputeState
  rw [h1, h2]

theorem recomputeState_ne_pending (b : Battle) : recomputeState b ≠ BattlePhase.pending := by
  unfold recomputeState
  split
  · split <;> intro h <;> exact BattlePhase.noConfusion h
  · intro h
    exact BattlePhase.noConfusion h

/-! Lookups versus first-match updates. -/

theorem find?_updateFirst_self (p : BattleUnit → Bool) (f : BattleUnit → BattleUnit)
    (hf : ∀ u, p (f u) = p u) :
    ∀ l : List BattleUnit, (updateFirst p f l).find? p = (l.find? p).map f := by
  intro l
  induction l with
  | nil => rfl
  | cons x xs ih =>
    by_cases hx : p x = true
    · rw [updateFirst, if_pos hx, List.find?_cons_of_pos _ ((hf x).trans hx),
        List.find?_cons_of_pos _ hx]
      rfl
    · rw [updateFirst, if_neg hx, List.find?_cons_of_neg _ hx,
        List.find?_cons_of_neg _ hx, ih]

theorem find?_updateFirst_other (p q : BattleUnit → Bool) (f : BattleUnit → BattleUnit)
    (hfq : ∀ u, q (f u) = q u) (hpq : ∀ u, p u = true → q u = false) :
    ∀ l : List BattleUnit, (updateFirst p f l).find? q = l.find? q := by
  intro l
  induction l with
  | nil => rfl
  | cons x xs ih =>
    by_cases hx : p x = true
    · have hq : ¬q x = true := by rw [hpq x hx]; exact Bool.false_ne_true
      have hq' : ¬q (f x) = true := by rw [hfq x]; exact hq
      rw [updateFirst, if_pos hx, List.find?_cons_of_neg _ hq',
        List.find?_cons_of_neg _ hq]
    · by_cases hqx : q x = true
      · rw [updateFirst, if_neg hx, List.find?_cons_of_pos _ hqx, List.find?_cons_of_pos _ hqx]
      · rw [updateFirst, if_neg hx, List.find?_cons_of_neg _ hqx,
          List.find?_cons_of_neg _ hqx, ih]

theorem findUnit_updateUnit_self (b : Battle) (uid : Option String) (f : BattleUnit → BattleUnit)
    (hid : ∀ u, (f u).id = u.id) :
    findUnitInBattle (updateUnitInBattle b uid f) uid =
      (findUnitInBattle b uid).map (fun ku => (ku.1, f ku.2)) := by
  have hf : ∀ u, (some (f u).id == uid) = (some u.id == uid) := fun u => by rw [hid]
  unfold updateUnitInBattle findUnitInBattle
  by_cases hm : (b.members.find? (fun m => some m.id == uid)).isSome
  · rw [if_pos hm]
    obtain ⟨m, hm'⟩ := Option.isSome_iff_exists.mp hm
    dsimp only
    rw [find?_updateFirst_self _ _ hf, hm']
    rfl
  · rw [if_neg hm]
    rw [Option.not_isSome_iff_eq_none] at hm
    dsimp only
    rw [hm, find?_updateFirst_self _ _ hf]
    cases b.enemies.find? (fun e => some e.id == uid) <;> rfl

theorem findUnit_updateUnit_ne (b : Battle) (uid uid' : Option String) (f : BattleUnit → BattleUnit)
    (hid : ∀ u, (f u).id = u.id) (hne : uid' ≠ uid) :
    findUnitInBattle (updateUnitInBattle b uid f) uid' = findUnitInBattle b uid' := by
  have hfq : ∀ u, (some (f u).id == uid') = (some u.id == uid') := fun u => by rw [hid]
  have hpq : ∀ u : BattleUnit, (some u.id == uid) = true → (some u.id == uid') = false := by
    intro u h
    rw [beq_iff_eq] at h
    rw [beq_eq_false_iff_ne]
    intro hq
    exact hne (by rw [← hq, h])
  unfold updateUnitInBattle findUnitInBattle
  by_cases hm : (b.members.find? (fun m => some m.id == uid)).isSome
  · rw [if_pos hm]
    dsimp only
    rw [find?_updateFirst_other _ _ _ hfq hpq]
  · rw [if_neg hm]
    dsimp only
    rw [find?_updateFirst_other _ _ _ hfq hpq]

/-! Stage lemmas: each block of the resolution tail preserves identity and
the fields it is not about, and acts on the resolved unit as the
corresponding unit function. -/

theorem mpApply_id (ability : Ability) (u : BattleUnit) : (mpApply ability u).id = u.id := by
  unfold mpApply
  split <;> rfl

theorem hpApply_id (ability : Ability) (amount : ℤ) (u : BattleUnit) :
    (hpApply ability amount u).id = u.id := by
  unfold hpApply
  split
  · rfl
  · split <;> rfl

theorem statusApply_id (ability : Ability) (u : BattleUnit) : (statusApply ability u).id = u.id := by
  unfold statusApply
  cases ability.statusEffect
  · rfl
  · dsimp only
    split <;> rfl

theorem statusApply_stats (ability : Ability) (u : BattleUnit) :
    (statusApply ability u).stats = u.stats := by
  unfold statusApply
  cases ability.statusEffect
  · rfl
  · dsimp only
    split <;> rfl

theorem statusApply_statusEffects (ability : Ability) (u : BattleUnit) :
    (statusApply ability u).statusEffects =
      (match ability.statusEffect with
       | some se => if u.statusEffects.contains se then u.statusEffects else u.statusEffects ++ [se]
       | none => u.statusEffects) := by
  unfold statusApply
  cases ability.statusEffect with
  | none => rfl
  | some se =>
    dsimp only
    by_cases hc : u.statusEffects.contains se = true
    · rw [if_pos hc, if_pos hc]
    · rw [if_neg hc, if_neg hc]

theorem hpApply_statusEffects (ability : Ability) (amount : ℤ) (u : BattleUnit) :
    (hpApply ability amount u).statusEffects = u.statusEffects := by
  unfold hpApply
  split
  · rfl
  · split <;> rfl

theorem mpApply_statusEffects (ability : Ability) (u : BattleUnit) :
    (mpApply ability u).statusEffects = u.statusEffects := by
  unfold mpApply
  split <;> rfl

theorem mpApply_hp (ability : Ability) (u : BattleUnit) :
    (mpApply ability u).stats.hp = u.stats.hp := by
  unfold mpApply
  split <;> rfl

theorem mpApply_maxHp (ability : Ability) (u : BattleUnit) :
    (mpApply ability u).stats.maxHp = u.stats.maxHp := by
  unfold mpApply
  split <;> rfl

theorem mpApply_mp (ability : Ability) (u : BattleUnit) :
    (mpApply ability u).stats.mp =
      (if 0 < ability.mpCost then max 0 (u.stats.mp - ability.mpCost) else u.stats.mp) := by
  unfold mpApply
  split <;> rfl

theorem hpApply_mp (ability : Ability) (amount : ℤ) (u : BattleUnit) :
    (hpApply ability amount u).stats.mp = u.stats.mp := by
  unfold hpApply clampHp
  split
  · rfl
  · split <;> rfl

theorem hpApply_maxHp (ability : Ability) (amount : ℤ) (u : BattleUnit) :
    (hpApply ability amount u).stats.maxHp = u.stats.maxHp := by
  unfold hpApply clampHp
  split
  · rfl
  · split <;> rfl

theorem hpApply_hp (ability : Ability) (amount : ℤ) (u : BattleUnit) :
    (hpApply ability amount u).stats.hp =
      (if 0 < ability.power ∧ isHealingTargetType ability.targetType = true then
        max 0 (min u.stats.maxHp (u.stats.hp + amount))
      else if 0 < ability.power then
        max 0 (min u.stats.maxHp (max 0 (u.stats.hp - amount)))
      else u.stats.hp) := by
  unfold hpApply clampHp
  by_cases h1 : 0 < ability.power ∧ isHealingTargetType ability.targetType = true
  · rw [if_pos h1, if_pos h1]
  · rw [if_neg h1, if_neg h1]
    by_cases h2 : 0 < ability.power
    · rw [if_pos h2, if_pos h2]
    · rw [if_neg h2, if_neg h2]

theorem hpApply_of_not_power (ability : Ability) (amount : ℤ) (u : BattleUnit)
    (hp : ¬0 < ability.power) : hpApply ability amount u = u := by
  unfold hpApply
  rw [if_neg (fun h => hp h.1), if_neg hp]

theorem statusApply_of_none (ability : Ability) (u : BattleUnit)
    (h : ability.statusEffect = none) : statusApply ability u = u := by
  unfold statusApply
  rw [h]

theorem execAmount_mpApply_left (ab ab2 : Ability) (u v : BattleUnit) :
    execAmount ab (mpApply ab2 u) v = execAmount ab u v := by
  unfold mpApply
  split <;> rfl

theorem execAmount_mpApply_right (ab ab2 : Ability) (u v : BattleUnit) :
    execAmount ab u (mpApply ab2 v) = execAmount ab u v := by
  unfold mpApply
  split <;> rfl

theorem findUnit_mpStage_source (b : Battle) (cmd : BattleCommand) (ability : Ability) :
    findUnitInBattle (mpStage b cmd ability) cmd.sourceId =
      (findUnitInBattle b cmd.sourceId).map (fun ku => (ku.1, mpApply ability ku.2)) := by
  unfold mpStage
  by_cases hc : 0 < ability.mpCost
  · rw [if_pos hc, findUnit_updateUnit_self b cmd.sourceId
      (fun u => { u with stats := { u.stats with mp := max 0 (u.stats.mp - ability.mpCost) } })
      (fun u => rfl)]
    simp only [mpApply, if_pos hc]
  · rw [if_neg hc]
    simp only [mpApply, if_neg hc]
    cases findUnitInBattle b cmd.sourceId <;> rfl

theorem findUnit_mpStage_ne (b : Battle) (cmd : BattleCommand) (ability : Ability)
    (uid' : Option String) (hne : uid' ≠ cmd.sourceId) :
    findUnitInBattle (mpStage b cmd ability) uid' = findUnitInBattle b uid' := by
  unfold mpStage
  by_cases hc : 0 < ability.mpCost
  · rw [if_pos hc, findUnit_updateUnit_ne b cmd.sourceId uid'
      (fun u => { u with stats := { u.stats with mp := max 0 (u.stats.mp - ability.mpCost) } })
      (fun u => rfl) hne]
  · rw [if_neg hc]

theorem findUnit_effectStage_target (b1 : Battle) (cmd : BattleCommand) (ability : Ability)
    (amount : ℤ) :
    findUnitInBattle (effectStage b1 cmd ability amount) cmd.targetId =
      (findUnitInBattle b1 cmd.targetId).map (fun ku => (ku.1, hpApply ability amount ku.2)) := by
  unfold effectStage
  by_cases hp : 0 < ability.power
  · rw [if_pos hp, findUnit_updateUnit_self _ _ _ (hpApply_id ability amount)]
  · rw [if_neg hp]
    simp only [hpApply_of_not_power _ _ _ hp]
    cases findUnitInBattle b1 cmd.targetId <;> rfl

theorem findUnit_effectStage_ne (b1 : Battle) (cmd : BattleCommand) (ability : Ability)
    (amount : ℤ) (uid' : Option String) (hne : uid' ≠ cmd.targetId) :
    findUnitInBattle (effectStage b1 cmd ability amount) uid' = findUnitInBattle b1 uid' := by
  unfold effectStage
  by_cases hp : 0 < ability.power
  · rw [if_pos hp, findUnit_updateUnit_ne _ _ _ _ (hpApply_id ability amount) hne]
  · rw [if_neg hp]

theorem findUnit_statusStage_target (b2 : Battle) (cmd : BattleCommand) (ability : Ability) :
    findUnitInBattle (statusStage b2 cmd ability) cmd.targetId =
      (findUnitInBattle b2 cmd.targetId).map (fun ku => (ku.1, statusApply ability ku.2)) := by
  unfold statusStage
  cases hse : ability.statusEffect
  · simp only [statusApply_of_none _ _ hse]
    cases findUnitInBattle b2 cmd.targetId <;> rfl
  · exact findUnit_updateUnit_self _ _ _ (statusApply_id ability)

theorem findUnit_statusStage_ne (b2 : Battle) (cmd : BattleCommand) (ability : Ability)
    (uid' : Option String) (hne : uid' ≠ cmd.targetId) :
    findUnitInBattle (statusStage b2 cmd ability) uid' = findUnitInBattle b2 uid' := by
  unfold statusStage
  cases hse : ability.statusEffect
  · rfl
  · exact findUnit_updateUnit_ne _ _ _ _ (statusApply_id ability) hne

theorem state_mpStage (b : Battle) (cmd : BattleCommand) (ability : Ability) :
    (mpStage b cmd ability).state = b.state := by
  unfold mpStage
  split
  · exact state_updateUnit _ _ _
  · rfl

theorem log_mpStage (b : Battle) (cmd : BattleCommand) (ability : Ability) :
    (mpStage b cmd ability).log = b.log := by
  unfold mpStage
  split
  · exact log_updateUnit _ _ _
  · rfl

theorem state_effectStage (b1 : Battle) (cmd : BattleCommand) (ability : Ability) (amount : ℤ) :
    (effectStage b1 cmd ability amount).state = b1.state := by
  unfold effectStage
  split
  · exact state_updateUnit _ _ _
  · rfl

theorem log_effectStage (b1 : Battle) (cmd : BattleCommand) (ability : Ability) (amount : ℤ) :
    (effectStage b1 cmd ability amount).log = b1.log := by
  unfold effectStage
  split
  · exact log_updateUnit _ _ _
  · rfl

theorem state_statusStage (b2 : Battle) (cmd : BattleCommand) (ability : Ability) :
    (statusStage b2 cmd ability).state = b2.state := by
  unfold statusStage
  cases ability.statusEffect
  · rfl
  · exact state_updateUnit _ _ _

theorem log_statusStage (b2 : Battle) (cmd : BattleCommand) (ability : Ability) :
    (statusStage b2 cmd ability).log = b2.log := by
  unfold statusStage
  cases ability.statusEffect
  · rfl
  · exact log_updateUnit _ _ _

theorem members_endOfAction (b : Battle) : (endOfActionStage b).members = b.members := by
  unfold endOfActionStage
  dsimp only
  split <;> rfl

theorem enemies_endOfAction (b : Battle) : (endOfActionStage b).enemies = b.enemies := by
  unfold endOfActionStage
  dsimp only
  split <;> rfl

theorem state_endOfAction (b : Battle) : (endOfActionStage b).state = recomputeState b := by
  unfold endOfActionStage
  dsimp only
  have hrc : recomputeState (pruneDeadFromTurnOrder b) = recomputeState b :=
    recomputeState_congr (members_pruneDead b) (enemies_pruneDead b)
  split
  · exact hrc
  · rename_i h
    rw [not_not] at h
    rw [state_pruneDead] at h ⊢
    rw [← h, hrc]

theorem log_endOfAction (b : Battle) : (endOfActionStage b).log =
    b.log ++
      (if recomputeState b = b.state then []
       else if recomputeState b = BattlePhase.victory then ["Victory!"]
       else if recomputeState b = BattlePhase.defeat then ["Defeat."]
       else []) := by
  unfold endOfActionStage
  dsimp only
  have hrc : recomputeState (pruneDeadFromTurnOrder b) = recomputeState b :=
    recomputeState_congr (members_pruneDead b) (enemies_pruneDead b)
  split
  · rename_i h
    rw [state_pruneDead, hrc] at h
    rw [log_pruneDead, hrc, if_neg h]
  · rename_i h
    rw [not_not, state_pruneDead, hrc] at h
    rw [log_pruneDead, if_pos h, List.append_nil]

theorem findUnit_setLog (b : Battle) (l : List String) (uid : Option String) :
    findUnitInBattle { b with log := l } uid = findUnitInBattle b uid := rfl

theorem findUnit_endOfAction (b : Battle) (uid : Option String) :
    findUnitInBattle (endOfActionStage b) uid = findUnitInBattle b uid :=
  findUnit_congr (members_endOfAction b) (enemies_endOfAction b) uid

/-- Reduction of the executeCommand dispatcher to the resolution tail when
all its checks pass. -/
theorem executeCommand_resolves (b : Battle) (cmd : BattleCommand) (ability : Ability)
    (aref : TurnRef) (sk tk : TurnKind) (src tgt : BattleUnit)
    (hst : b.state = BattlePhase.in_progress)
    (hab : lookupAbilityById cmd.abilityId = some ability)
    (hnf : cmd.abilityId ≠ some "flee")
    (href : activeTurnRef b = some aref)
    (hsid : cmd.sourceId = some aref.id)
    (hfs : findUnitInBattle b cmd.sourceId = some (sk, src))
    (hft : findUnitInBattle b cmd.targetId = some (tk, tgt)) :
    executeCommand b cmd = executeResolved b cmd ability (sk, src) (tk, tgt) := by
  unfold executeCommand
  rw [if_neg (by rw [hst]; exact fun h => h rfl), hab]
  dsimp only
  rw [if_neg hnf, href]
  dsimp only
  rw [if_neg (by rw [hsid]; exact fun h => h rfl), hfs, hft]

/-- The insufficient-MP soft failure of the resolution tail: a log line and
no other change. -/
theorem executeResolved_lackedMP (b : Battle) (cmd : BattleCommand) (ability : Ability)
    (sk tk : TurnKind) (src tgt : BattleUnit)
    (hc : 0 < ability.mpCost) (hlt : src.stats.mp < ability.mpCost) :
    executeResolved b cmd ability (sk, src) (tk, tgt) =
      { b with log := b.log ++ [getUnitName (some src) ++ " tried " ++ ability.name ++ " but lacked MP."] } := by
  unfold executeResolved
  rw [if_pos ⟨hc, hlt⟩]


theorem log_endOfAction_of_in_progress (b : Battle) (hst : b.state = BattlePhase.in_progress) :
    (endOfActionStage b).log = b.log ++
      (if (endOfActionStage b).state = BattlePhase.victory then ["Victory!"]
       else if (endOfActionStage b).state = BattlePhase.defeat then ["Defeat."]
       else []) := by
  rw [log_endOfAction, state_endOfAction, hst]
  cases hR : recomputeState b with
  | pending => exact absurd hR (recomputeState_ne_pending b)
  | in_progress => rfl
  | victory => rfl
  | defeat => rfl

/-- What the resolution tail does, stated through the post-battle lookups:
the target ends with the clamped healed / damaged hp and the
added-if-absent status tag, the source ends with the deducted mp, the
final state is the recomputed one and the log grows by the action line
plus the terminal line when the state changed. -/
theorem executeResolved_run (b : Battle) (cmd : BattleCommand) (ability : Ability)
    (sk tk : TurnKind) (src tgt : BattleUnit)
    (hst : b.state = BattlePhase.in_progress)
    (hfs : findUnitInBattle b cmd.sourceId = some (sk, src))
    (hft : findUnitInBattle b cmd.targetId = some (tk, tgt))
    (hmp : 0 < ability.mpCost → ability.mpCost ≤ src.stats.mp) :
    ∃ tgt2 src2 : BattleUnit,
      findUnitInBattle (executeResolved b cmd ability (sk, src) (tk, tgt)) cmd.targetId = some (tk, tgt2)
      ∧ findUnitInBattle (executeResolved b cmd ability (sk, src) (tk, tgt)) cmd.sourceId = some (sk, src2)
      ∧ tgt2.stats.hp =
          (if 0 < ability.power ∧ isHealingTargetType ability.targetType = true then
            max 0 (min tgt.stats.maxHp (tgt.stats.hp + execAmount ability src tgt))
          else if 0 < ability.power then
            max 0 (min tgt.stats.maxHp (max 0 (tgt.stats.hp - execAmount ability src tgt)))
          else tgt.stats.hp)
      ∧ tgt2.stats.maxHp = tgt.stats.maxHp
      ∧ tgt2.statusEffects =
          (match ability.statusEffect with
           | some se => if tgt.statusEffects.contains se then tgt.statusEffects else tgt.statusEffects ++ [se]
           | none => tgt.statusEffects)
      ∧ src2.stats.mp =
          (if 0 < ability.mpCost then max 0 (src.stats.mp - ability.mpCost) else src.stats.mp)
      ∧ (executeResolved b cmd ability (sk, src) (tk, tgt)).state =
          recomputeState (executeResolved b cmd ability (sk, src) (tk, tgt))
      ∧ ∃ line : String,
          (executeResolved b cmd ability (sk, src) (tk, tgt)).log =
            b.log ++ [line] ++
              (if (executeResolved b cmd ability (sk, src) (tk, tgt)).state = BattlePhase.victory then ["Victory!"]
               else if (executeResolved b cmd ability (sk, src) (tk, tgt)).state = BattlePhase.defeat then ["Defeat."]
               else []) := by
  have hcond : ¬(0 < ability.mpCost ∧ src.stats.mp < ability.mpCost) := by
    rintro ⟨h1, h2⟩
    exact absurd (hmp h1) (not_le.mpr h2)
  have h1s : findUnitInBattle (mpStage b cmd ability) cmd.sourceId = some (sk, mpApply ability src) := by
    rw [findUnit_mpStage_source, hfs]
    rfl
  by_cases halias : cmd.targetId = cmd.sourceId
  · -- the command targets its own source: one unit receives every change
    rw [halias, hfs] at hft
    obtain ⟨hk, hu⟩ : sk = tk ∧ src = tgt := by
      have hp := Option.some.inj hft
      exact ⟨congrArg Prod.fst hp, congrArg Prod.snd hp⟩
    subst hk
    subst hu
    have h1t : findUnitInBattle (mpStage b cmd ability) cmd.targetId = some (sk, mpApply ability src) := by
      rw [halias, h1s]
    have hEX : executeResolved b cmd ability (sk, src) (sk, src) =
        endOfActionStage
          { statusStage (effectStage (mpStage b cmd ability) cmd ability (execAmount ability src src)) cmd ability with
            log := (statusStage (effectStage (mpStage b cmd ability) cmd ability (execAmount ability src src)) cmd ability).log
              ++ [actionLogLine ability (execAmount ability src src)
                    (getUnitName (some (mpApply ability src))) (getUnitName (some (mpApply ability src)))] } := by
      unfold executeResolved
      rw [if_neg hcond]
      dsimp only
      rw [h1s, h1t]
      dsimp only
      rw [execAmount_mpApply_left, execAmount_mpApply_right]
    rw [hEX]
    refine ⟨statusApply ability (hpApply ability (execAmount ability src src) (mpApply ability src)),
      statusApply ability (hpApply ability (execAmount ability src src) (mpApply ability src)),
      ?_, ?_, ?_, ?_, ?_, ?_, ?_, ?_⟩
    · rw [findUnit_endOfAction, findUnit_setLog, findUnit_statusStage_target,
        findUnit_effectStage_target, h1t]
      rfl
    · rw [← halias, findUnit_endOfAction, findUnit_setLog, findUnit_statusStage_target,
        findUnit_effectStage_target, h1t]
      rfl
    · rw [statusApply_stats, hpApply_hp, mpApply_maxHp, mpApply_hp]
    · rw [statusApply_stats, hpApply_maxHp, mpApply_maxHp]
    · rw [statusApply_statusEffects, hpApply_statusEffects, mpApply_statusEffects]
    · rw [statusApply_stats, hpApply_mp, mpApply_mp]
    · rw [state_endOfAction]
      exact (recomputeState_congr (members_endOfAction _) (enemies_endOfAction _)).symm
    · refine ⟨actionLogLine ability (execAmount ability src src)
        (getUnitName (some (mpApply ability src))) (getUnitName (some (mpApply ability src))), ?_⟩
      rw [log_endOfAction_of_in_progress _
        (by dsimp only; rw [state_statusStage, state_effectStage, state_mpStage, hst])]
      dsimp only
      rw [log_statusStage, log_effectStage, log_mpStage, List.append_assoc]
  · -- distinct source and target units
    have hne : cmd.sourceId ≠ cmd.targetId := fun h => halias h.symm
    have h1t : findUnitInBattle (mpStage b cmd ability) cmd.targetId = some (tk, tgt) := by
      rw [findUnit_mpStage_ne b cmd ability cmd.targetId halias, hft]
    have hEX : executeResolved b cmd ability (sk, src) (tk, tgt) =
        endOfActionStage
          { statusStage (effectStage (mpStage b cmd ability) cmd ability (execAmount ability src tgt)) cmd ability with
            log := (statusStage (effectStage (mpStage b cmd ability) cmd ability (execAmount ability src tgt)) cmd ability).log
              ++ [actionLogLine ability (execAmount ability src tgt)
                    (getUnitName (some (mpApply ability src))) (getUnitName (some tgt))] } := by
      unfold executeResolved
      rw [if_neg hcond]
      dsimp only
      rw [h1s, h1t]
      dsimp only
      rw [execAmount_mpApply_left]
    rw [hEX]
    refine ⟨statusApply ability (hpApply ability (execAmount ability src tgt) tgt),
      mpApply ability src, ?_, ?_, ?_, ?_, ?_, ?_, ?_, ?_⟩
    · rw [findUnit_endOfAction, findUnit_setLog, findUnit_statusStage_target,
        findUnit_effectStage_target, h1t]
      rfl
    · rw [findUnit_endOfAction, findUnit_setLog, findUnit_statusStage_ne _ _ _ _ hne,
        findUnit_effectStage_ne _ _ _ _ _ hne, h1s]
    · rw [statusApply_stats, hpApply_hp]
    · rw [statusApply_stats, hpApply_maxHp]
    · rw [statusApply_statusEffects, hpApply_statusEffects]
    · rw [mpApply_mp]
    · rw [state_endOfAction]
      exact (recomputeState_congr (members_endOfAction _) (enemies_endOfAction _)).symm
    · refine ⟨actionLogLine ability (execAmount ability src tgt)
        (getUnitName (some (mpApply ability src))) (getUnitName (some tgt)), ?_⟩
      rw [log_endOfAction_of_in_progress _
        (by dsimp only; rw [state_statusStage, state_effectStage, state_mpStage, hst])]
      dsimp only
      rw [log_statusStage, log_effectStage, log_mpStage, List.append_assoc]

/-! Order facts for the turn-order comparator. -/

theorem lexLeChars_total : ∀ as bs : List Char, lexLeChars as bs = true ∨ lexLeChars bs as = true
  | [], _ => Or.inl rfl
  | _ :: _, [] => Or.inr rfl
  | a :: as, b :: bs => by
    rcases Nat.lt_trichotomy a.toNat b.toNat with h | h | h
    · left
      unfold lexLeChars
      rw [if_pos h]
    · have hab : ¬a.toNat < b.toNat := by rw [h]; exact Nat.lt_irrefl _
      have hba : ¬b.toNat < a.toNat := by rw [h]; exact Nat.lt_irrefl _
      rcases lexLeChars_total as bs with ih | ih
      · left
        unfold lexLeChars
        rw [if_neg hab, if_neg hba]
        exact ih
      · right
        unfold lexLeChars
        rw [if_neg hba, if_neg hab]
        exact ih
    · right
      unfold lexLeChars
      rw [if_pos h]

theorem lexLeChars_cons (a b : Char) (as bs : List Char) :
    lexLeChars (a :: as) (b :: bs) = true ↔
      (a.toNat < b.toNat ∨ (a.toNat = b.toNat ∧ lexLeChars as bs = true)) := by
  conv_lhs => rw [lexLeChars]
  rcases Nat.lt_trichotomy a.toNat b.toNat with h | h | h
  · rw [if_pos h]
    simp [h]
  · have hab : ¬a.toNat < b.toNat := by rw [h]; exact Nat.lt_irrefl _
    have hba : ¬b.toNat < a.toNat := by rw [h]; exact Nat.lt_irrefl _
    rw [if_neg hab, if_neg hba]
    constructor
    · intro hl
      exact Or.inr ⟨h, hl⟩
    · rintro (hlt | ⟨_, hl⟩)
      · exact absurd hlt hab
      · exact hl
  · have hab : ¬a.toNat < b.toNat := Nat.lt_asymm h
    have hne : ¬a.toNat = b.toNat := Nat.ne_of_gt h
    rw [if_neg hab, if_pos h]
    simp [hab, hne]

theorem lexLeChars_trans : ∀ as bs cs : List Char,
    lexLeChars as bs = true → lexLeChars bs cs = true → lexLeChars as cs = true
  | [], _, _ => fun _ _ => rfl
  | _ :: _, [], _ => fun h1 _ => absurd h1 (by unfold lexLeChars; exact Bool.false_ne_true)
  | _ :: _, _ :: _, [] => fun _ h2 => absurd h2 (by unfold lexLeChars; exact Bool.false_ne_true)
  | a :: as, b :: bs, c :: cs => fun h1 h2 => by
    rw [lexLeChars_cons] at h1 h2 ⊢
    rcases h1 with h1 | ⟨he1, h1⟩
    · rcases h2 with h2 | ⟨he2, h2⟩
      · exact Or.inl (Nat.lt_trans h1 h2)
      · exact Or.inl (he2 ▸ h1)
    · rcases h2 with h2 | ⟨he2, h2⟩
      · exact Or.inl (by rw [he1]; exact h2)
      · exact Or.inr ⟨he1.trans he2, lexLeChars_trans as bs cs h1 h2⟩

instance : IsTotal TurnEntry turnEntryLE := by
  constructor
  intro a b
  unfold turnEntryLE tieLe
  rcases lt_trichotomy a.speed b.speed with h | h | h
  · exact Or.inr (Or.inl h)
  · rcases lexLeChars_total a.tie.data b.tie.data with ht | ht
    · exact Or.inl (Or.inr ⟨h, ht⟩)
    · exact Or.inr (Or.inr ⟨h.symm, ht⟩)
  · exact Or.inl (Or.inl h)

instance : IsTrans TurnEntry turnEntryLE := by
  constructor
  intro a b c hab hbc
  unfold turnEntryLE tieLe at hab hbc ⊢
  rcases hab with h1 | ⟨he1, ht1⟩
  · rcases hbc with h2 | ⟨he2, ht2⟩
    · exact Or.inl (lt_trans h2 h1)
    · exact Or.inl (he2 ▸ h1)
  · rcases hbc with h2 | ⟨he2, ht2⟩
    · exact Or.inl (by rw [he1]; exact h2)
    · exact Or.inr ⟨he1.trans he2, lexLeChars_trans _ _ _ ht1 ht2⟩

/-! Spec-side reference definitions for the damage claim, written from the
claim text and compared with the source-derived computation. -/

/-- The spec's weakness table W, as the claim lists it:
FIRE to WATER, WATER to EARTH, EARTH to WIND, WIND to FIRE,
LIGHT to SHADOW, SHADOW to LIGHT, NULL to NULL. -/
def specWeakness (e : String) : Option String :=
  if e = "FIRE" then some "WATER"
  else if e = "WATER" then some "EARTH"
  else if e = "EARTH" then some "WIND"
  else if e = "WIND" then some "FIRE"
  else if e = "LIGHT" then some "SHADOW"
  else if e = "SHADOW" then some "LIGHT"
  else if e = "NULL" then some "NULL"
  else none

/-- The spec's elemental multiplier: 1 when either element is absent or
NULL, 1.25 when W maps the target element to the ability element, 0.75
when W maps the ability element to the target element, 0.9 on equal
elements, 1 otherwise. -/
def specElementalMultiplier (abilityElement targetElement : Option String) : ℚ :=
  match abilityElement, targetElement with
  | none, _ => 1
  | _, none => 1
  | some a, some t =>
    if a = "NULL" ∨ t = "NULL" then 1
    else if specWeakness t = some a then 1.25
    else if specWeakness a = some t then 0.75
    else if a = t then 0.9
    else 1

theorem specWeakness_eq : specWeakness = ELEMENTAL_WEAKNESS := rfl

theorem specWeakness_ne_blank (e : String) : specWeakness e ≠ some "" := by
  intro h
  unfold specWeakness at h
  split_ifs at h <;> simp_all

/-- The elements the engine can read from a unit are never the empty
string: an explicit element is only taken when non-blank, and inferred
elements come from the element name table. -/
theorem resonance_foldl_mem : ∀ (cr : List (String × ℤ)) (acc : Option (String × ℤ)),
    (∀ p, acc = some p → p.1 ∈ ELEMENT_NAMES) →
    ∀ p, cr.foldl resonanceStep acc = some p → p.1 ∈ ELEMENT_NAMES
  | [], _, hacc, p, h => hacc p h
  | kv :: rest, acc, hacc, p, h => by
    refine resonance_foldl_mem rest (resonanceStep acc kv) ?_ p h
    intro q hq
    unfold resonanceStep at hq
    by_cases hmem : ELEMENT_NAMES.contains (strUpper kv.1) = true
    · rw [if_pos hmem] at hq
      have hmem' : strUpper kv.1 ∈ ELEMENT_NAMES := by
        simpa using hmem
      cases hacc' : acc with
      | none =>
        rw [hacc'] at hq
        dsimp only at hq
        cases hq
        exact hmem'
      | some best =>
        rw [hacc'] at hq
        dsimp only at hq
        split at hq
        · cases hq
          exact hmem'
        · cases hq
          exact hacc _ hacc'
    · rw [if_neg hmem] at hq
      exact hacc q hq

theorem getUnitElement_ne_blank (u : BattleUnit) : getUnitElement u ≠ some "" := by
  unfold getUnitElement
  have hres : ∀ p, (u.crystalResonance.foldl resonanceStep none = some p) → p.1 ∈ ELEMENT_NAMES :=
    resonance_foldl_mem u.crystalResonance none (fun p h => Option.noConfusion h)
  have hmap : (u.crystalResonance.foldl resonanceStep none).map (fun best => best.1) ≠ some "" := by
    cases hr : u.crystalResonance.foldl resonanceStep none with
    | none => exact fun h => Option.noConfusion h
    | some best =>
      intro h
      have hb : best.1 = "" := Option.some.inj h
      have := hres best hr
      rw [hb] at this
      exact absurd this (by decide)
  cases he : u.element with
  | none => exact hmap
  | some s =>
    dsimp only
    by_cases hs : strTrimTruthy s = true
    · rw [if_pos hs]
      intro h
      have hs' : s = "" := Option.some.inj h
      rw [hs'] at hs
      exact absurd hs (by decide)
    · rw [if_neg hs]
      exact hmap

theorem ELEMENTAL_WEAKNESS_ne_blank (e : String) : ELEMENTAL_WEAKNESS e ≠ some "" := by
  rw [← specWeakness_eq]
  exact specWeakness_ne_blank e

/-- The engine multiplier equals the spec multiplier on every element the
engine can read from a unit. -/
theorem elementalMultiplier_eq_spec (ae : String) (u : BattleUnit) :
    elementalMultiplier ae (getUnitElement u) =
      specElementalMultiplier (some ae) (getUnitElement u) := by
  cases ht : getUnitElement u with
  | none =>
    unfold elementalMultiplier specElementalMultiplier
    split <;> rfl
  | some t =>
    have htne : t ≠ "" := by
      intro hcontra
      exact getUnitElement_ne_blank u (by rw [ht, hcontra])
    unfold elementalMultiplier specElementalMultiplier
    dsimp only
    rw [specWeakness_eq]
    by_cases han : ae = "NULL"
    · rw [if_pos (show ae = "" ∨ ae = "NULL" from Or.inr han),
        if_pos (show ae = "NULL" ∨ t = "NULL" from Or.inl han)]
    · by_cases htn : t = "NULL"
      · by_cases ha0 : ae = ""
        · rw [if_pos (show ae = "" ∨ ae = "NULL" from Or.inl ha0),
            if_pos (show ae = "NULL" ∨ t = "NULL" from Or.inr htn)]
        · rw [if_neg (show ¬(ae = "" ∨ ae = "NULL") from by rintro (h | h); exacts [ha0 h, han h]),
            if_pos (show t = "" ∨ t = "NULL" from Or.inr htn),
            if_pos (show ae = "NULL" ∨ t = "NULL" from Or.inr htn)]
      · by_cases ha0 : ae = ""
        · rw [if_pos (show ae = "" ∨ ae = "NULL" from Or.inl ha0),
            if_neg (show ¬(ae = "NULL" ∨ t = "NULL") from by rintro (h | h); exacts [han h, htn h])]
          subst ha0
          rw [if_neg (show ¬(ELEMENTAL_WEAKNESS t = some "") from ELEMENTAL_WEAKNESS_ne_blank t),
            if_neg (show ¬(ELEMENTAL_WEAKNESS "" = some t) from by
              rw [show ELEMENTAL_WEAKNESS "" = none from rfl]
              exact fun hc => Option.noConfusion hc),
            if_neg (show ¬(("" : String) = t) from fun hc => htne hc.symm)]
        · rw [if_neg (show ¬(ae = "" ∨ ae = "NULL") from by rintro (h | h); exacts [ha0 h, han h]),
            if_neg (show ¬(t = "" ∨ t = "NULL") from by rintro (h | h); exacts [htne h, htn h]),
            if_neg (show ¬(ae = "NULL" ∨ t = "NULL") from by rintro (h | h); exacts [han h, htn h])]

/-- The damage amount exactly as the claim words it:
offense = (strength if the ability element is NULL else magic) + power,
mitigation = (defense if NULL else spirit) * 0.6,
amount = max(1, floor((offense - mitigation) * multiplier)). -/
def specDamageAmount (ability : Ability) (src tgt : BattleUnit) : ℤ :=
  max 1 ⌊((((if ability.element = "NULL" then src.stats.strength else src.stats.magic) + ability.power : ℤ) : ℚ)
      - (((if ability.element = "NULL" then tgt.stats.defense else tgt.stats.spirit) : ℤ) : ℚ) * 0.6)
      * specElementalMultiplier (some ability.element) (getUnitElement tgt)⌋

/-- The healing amount exactly as the claim words it:
amount = max(1, floor((power + magic * 1.1) * multiplier)). -/
def specHealAmount (ability : Ability) (src tgt : BattleUnit) : ℤ :=
  max 1 ⌊(((ability.power : ℤ) : ℚ) + ((src.stats.magic : ℤ) : ℚ) * 1.1)
      * elementalMultiplier ability.element (getUnitElement tgt)⌋

theorem execAmount_damage_eq_spec (ability : Ability) (src tgt : BattleUnit)
    (hpow : 0 < ability.power) (hnh : isHealingTargetType ability.targetType = false) :
    execAmount ability src tgt = specDamageAmount ability src tgt := by
  unfold execAmount specDamageAmount
  rw [if_neg (show ¬(0 < ability.power ∧ isHealingTargetType ability.targetType = true) from by
      rintro ⟨_, h2⟩
      rw [hnh] at h2
      exact Bool.false_ne_true h2),
    if_pos hpow,
    damageAmount_eq_floor _ _ _ (elementalMultiplierND_den_pos ability.element (getUnitElement tgt)),
    ← elementalMultiplier_eq_ND, elementalMultiplier_eq_spec]

theorem execAmount_heal_eq_spec (ability : Ability) (src tgt : BattleUnit)
    (hpow : 0 < ability.power) (hh : isHealingTargetType ability.targetType = true) :
    execAmount ability src tgt = specHealAmount ability src tgt := by
  unfold execAmount specHealAmount
  rw [if_pos (And.intro hpow hh),
    healAmount_eq_floor _ _ _ (elementalMultiplierND_den_pos ability.element (getUnitElement tgt)),
    ← elementalMultiplier_eq_ND]

/-- Double clamping collapses: for a non-negative cap, clamping an already
0-floored value is the same as clamping the raw value. -/
theorem clamp_max_zero (M x : ℤ) (hM : 0 ≤ M) :
    max 0 (min M (max 0 x)) = max 0 (min M x) := by
  omega

/-! Invariant machinery for the turn-order / index claim. -/

/-- The part of the C8 invariant that every operation preserves: the
active index is valid whenever the order is non-empty, and the state is
never pending once the battle runs. -/
def battleIndexInvariant (b : Battle) : Prop :=
  (b.turnOrder = [] ∨ b.activeTurnIndex < b.turnOrder.length) ∧ b.state ≠ BattlePhase.pending

/-- The invariant as claim C8 states it: a valid index into a non-empty
order, or an empty order with a terminal state. -/
def battleTurnInvariant (b : Battle) : Prop :=
  (b.turnOrder ≠ [] ∧ b.activeTurnIndex < b.turnOrder.length)
  ∨ (b.turnOrder = [] ∧ (b.state = BattlePhase.victory ∨ b.state = BattlePhase.defeat))

theorem index_pruneDead (b : Battle) :
    (pruneDeadFromTurnOrder b).turnOrder = []
      ∨ (pruneDeadFromTurnOrder b).activeTurnIndex < (pruneDeadFromTurnOrder b).turnOrder.length := by
  unfold pruneDeadFromTurnOrder
  dsimp only
  by_cases h : (b.turnOrder.filter (fun ref =>
      match ref.kind with
      | TurnKind.party => ((b.members.filter isAlive).map (fun m => m.id)).contains ref.id
      | TurnKind.enemy => ((b.enemies.filter isAlive).map (fun e => e.id)).contains ref.id)).length = 0
  · left
    exact List.eq_nil_of_length_eq_zero h
  · right
    rw [if_neg h]
    exact Nat.mod_lt _ (Nat.pos_of_ne_zero h)

theorem battleIndexInvariant_endOfAction (b : Battle) :
    battleIndexInvariant (endOfActionStage b) := by
  constructor
  · have hp := index_pruneDead b
    unfold endOfActionStage
    dsimp only
    split
    · exact hp
    · exact hp
  · rw [state_endOfAction]
    exact recomputeState_ne_pending b

theorem battleIndexInvariant_executeCommand (b : Battle) (cmd : BattleCommand)
    (h : battleIndexInvariant b) : battleIndexInvariant (executeCommand b cmd) := by
  unfold executeCommand
  split
  · exact h
  · split
    · exact ⟨h.1, h.2⟩
    · split
      · exact ⟨h.1, fun hc => BattlePhase.noConfusion hc⟩
      · split
        · exact ⟨h.1, h.2⟩
        · split
          · exact ⟨h.1, h.2⟩
          · split
            · unfold executeResolved
              dsimp only
              split
              · exact ⟨h.1, h.2⟩
              · exact battleIndexInvariant_endOfAction _
            · exact ⟨h.1, h.2⟩
            · exact ⟨h.1, h.2⟩

theorem turnOrder_advanceTurnLoop : ∀ (n : ℕ) (b : Battle),
    (advanceTurnLoop n b).turnOrder = b.turnOrder
  | 0, _ => rfl
  | n + 1, b => by
    unfold advanceTurnLoop
    split
    · split
      · rfl
      · exact turnOrder_advanceTurnLoop n _
    · exact turnOrder_advanceTurnLoop n _

theorem state_advanceTurnLoop : ∀ (n : ℕ) (b : Battle),
    (advanceTurnLoop n b).state = b.state
  | 0, _ => rfl
  | n + 1, b => by
    unfold advanceTurnLoop
    split
    · split
      · rfl
      · exact state_advanceTurnLoop n _
    · exact state_advanceTurnLoop n _

theorem indexInvariant_bump (b : Battle) :
    ({ b with activeTurnIndex := (b.activeTurnIndex + 1) % b.turnOrder.length } : Battle).turnOrder = []
      ∨ (b.activeTurnIndex + 1) % b.turnOrder.length < b.turnOrder.length := by
  cases hl : b.turnOrder with
  | nil => left; rfl
  | cons x xs =>
    right
    exact Nat.mod_lt _ (Nat.succ_pos _)

theorem battleIndexInvariant_advanceTurnLoop : ∀ (n : ℕ) (b : Battle),
    battleIndexInvariant b → battleIndexInvariant (advanceTurnLoop n b)
  | 0, _, h => h
  | n + 1, b, h => by
    unfold advanceTurnLoop
    split
    · split
      · exact h
      · exact battleIndexInvariant_advanceTurnLoop n _ ⟨indexInvariant_bump b, h.2⟩
    · exact battleIndexInvariant_advanceTurnLoop n _ ⟨indexInvariant_bump b, h.2⟩

theorem battleIndexInvariant_advanceTurn (b : Battle)
    (h : battleIndexInvariant b) : battleIndexInvariant (advanceTurn b) := by
  unfold advanceTurn
  split
  · exact h
  · dsimp only
    split
    · refine ⟨index_pruneDead b, ?_⟩
      intro hc
      exact recomputeState_ne_pending (pruneDeadFromTurnOrder b) hc
    · split
      · exact ⟨Or.inl (by
          rename_i hlen
          exact List.eq_nil_of_length_eq_zero hlen), fun hc => BattlePhase.noConfusion hc⟩
      · rename_i hlen
        apply battleIndexInvariant_advanceTurnLoop
        refine ⟨Or.inr ?_, ?_⟩
        · exact Nat.mod_lt _ (Nat.pos_of_ne_zero hlen)
        · rw [state_pruneDead]
          exact h.2

theorem battleIndexInvariant_createBattle (bid partyId playerId : String)
    (members enemies : List BattleUnit) :
    battleIndexInvariant (createBattle bid partyId playerId members enemies) := by
  unfold createBattle
  dsimp only
  constructor
  · cases hl : calculateInitialTurnOrder members enemies with
    | nil => left; rfl
    | cons x xs => right; exact Nat.succ_pos _
  · split <;> intro hc <;> exact BattlePhase.noConfusion hc

theorem battleTurnInvariant_createBattle (bid partyId playerId : String)
    (members enemies : List BattleUnit) :
    battleTurnInvariant (createBattle bid partyId playerId members enemies) := by
  unfold createBattle
  dsimp only
  cases hl : calculateInitialTurnOrder members enemies with
  | nil =>
    right
    refine ⟨rfl, Or.inr ?_⟩
    rfl
  | cons x xs =>
    left
    exact ⟨fun hc => List.noConfusion hc, Nat.succ_pos _⟩

theorem battleIndexInvariant_applyOps : ∀ (ops : List BattleOp) (b : Battle),
    battleIndexInvariant b → battleIndexInvariant (applyBattleOps ops b)
  | [], _, h => h
  | op :: ops, b, h => by
    have hstep : battleIndexInvariant (applyBattleOp b op) := by
      cases op with
      | exec cmd => exact battleIndexInvariant_executeCommand b cmd h
      | advance => exact battleIndexInvariant_advanceTurn b h
    exact battleIndexInvariant_applyOps ops _ hstep

theorem battleTurnInvariant_advanceTurn (b : Battle) (h : battleIndexInvariant b) :
    battleTurnInvariant (advanceTurn b) := by
  unfold advanceTurn
  split
  · rename_i hs
    rcases h.1 with h1 | h1
    · right
      refine ⟨h1, ?_⟩
      cases hb : b.state
      · exact absurd hb h.2
      · exact absurd hb hs
      · exact Or.inl rfl
      · exact Or.inr rfl
    · left
      refine ⟨?_, h1⟩
      intro hnil
      rw [hnil] at h1
      exact Nat.not_lt_zero _ h1
  · dsimp only
    split
    · rename_i hns
      rcases index_pruneDead b with h1 | h1
      · right
        refine ⟨h1, ?_⟩
        cases hr : recomputeState (pruneDeadFromTurnOrder b)
        · exact absurd hr (recomputeState_ne_pending _)
        · exact absurd hr hns
        · exact Or.inl rfl
        · exact Or.inr rfl
      · left
        refine ⟨?_, h1⟩
        intro hnil
        rw [hnil] at h1
        exact Nat.not_lt_zero _ h1
    · split
      · rename_i hlen
        right
        exact ⟨List.eq_nil_of_length_eq_zero hlen, Or.inr rfl⟩
      · rename_i hlen
        left
        have hli := battleIndexInvariant_advanceTurnLoop (pruneDeadFromTurnOrder b).turnOrder.length
          { pruneDeadFromTurnOrder b with
            activeTurnIndex :=
              ((pruneDeadFromTurnOrder b).activeTurnIndex + 1) % (pruneDeadFromTurnOrder b).turnOrder.length }
          ⟨Or.inr (Nat.mod_lt _ (Nat.pos_of_ne_zero hlen)), by
            intro hc
            exact h.2 (by rw [← state_pruneDead b]; exact hc)⟩
        constructor
        · rw [turnOrder_advanceTurnLoop]
          intro hnil
          exact hlen (by rw [show (pruneDeadFromTurnOrder b).turnOrder = ([] : List TurnRef) from hnil]; rfl)
        · rcases hli.1 with h1 | h1
          · rw [turnOrder_advanceTurnLoop] at h1
            exact absurd h1 (fun hc => hlen (by rw [show (pruneDeadFromTurnOrder b).turnOrder = ([] : List TurnRef) from hc]; rfl))
          · exact h1

/-! Verdict structure of the validator. -/

theorem validateBattleCommand_characterization (b : Battle) (pid : String) (cmd : BattleCommand) :
    validateBattleCommand b pid cmd = ⟨true, none⟩
    ∨ ((validateBattleCommand b pid cmd).ok = false
        ∧ ∃ r : String, (validateBattleCommand b pid cmd).reason = some r ∧ r ≠ "") := by
  unfold validateBattleCommand
  split
  · exact Or.inr ⟨rfl, "battle not in progress", rfl, by decide⟩
  · split
    · exact Or.inr ⟨rfl, "no turn order", rfl, by decide⟩
    · split
      · exact Or.inr ⟨rfl, "not player turn", rfl, by decide⟩
      · split
        · exact Or.inr ⟨rfl, "not player turn", rfl, by decide⟩
        · split
          · exact Or.inr ⟨rfl, "battle not owned by player", rfl, by decide⟩
          · split
            · exact Or.inr ⟨rfl, "invalid source for active turn", rfl, by decide⟩
            · split
              · exact Or.inr ⟨rfl, "invalid source for active turn", rfl, by decide⟩
              · split
                · exact Or.inr ⟨rfl, "unknown ability", rfl, by decide⟩
                · split
                  · exact Or.inr ⟨rfl, "missing source", rfl, by decide⟩
                  · split
                    · exact Or.inr ⟨rfl, "not enough MP", rfl, by decide⟩
                    · split
                      · exact Or.inr ⟨rfl, "missing target", rfl, by decide⟩
                      · split
                        · exact Or.inr ⟨rfl, "target not found", rfl, by decide⟩
                        · split
                          · exact Or.inr ⟨rfl, "target must be enemy", rfl, by decide⟩
                          · split
                            · exact Or.inr ⟨rfl, "target must be ally", rfl, by decide⟩
                            · split
                              · exact Or.inr ⟨rfl, "unsupported target type", rfl, by decide⟩
                              · exact Or.inl rfl

theorem validateBattleCommand_sourceMismatch (b : Battle) (pid : String) (cmd : BattleCommand)
    (hmm : ∀ ref : TurnRef, activeTurnRef b = some ref → cmd.sourceId ≠ some ref.id) :
    (validateBattleCommand b pid cmd).ok = false := by
  unfold validateBattleCommand
  split
  · rfl
  · split
    · rfl
    · split
      · rfl
      · rename_i aref heq
        split
        · rfl
        · split
          · rfl
          · split
            · rfl
            · rename_i sid heqs
              split
              · rfl
              · rename_i hnne
                exfalso
                have hsid : sid = aref.id := not_not.mp hnne
                exact hmm aref heq (by rw [heqs, hsid])

theorem validateBattleCommand_unsupportedTargetType (b : Battle) (pid : String)
    (cmd : BattleCommand) (ability : Ability)
    (hab : lookupAbilityById cmd.abilityId = some ability)
    (htt : ability.targetType = "party" ∨ ability.targetType = "enemy_all") :
    (validateBattleCommand b pid cmd).ok = false := by
  unfold validateBattleCommand
  split
  · rfl
  · split
    · rfl
    · split
      · rfl
      · split
        · rfl
        · split
          · rfl
          · split
            · rfl
            · split
              · rfl
              · split
                · rename_i heqa
                  exact Option.noConfusion (hab.symm.trans heqa)
                · rename_i ab heqa
                  rw [hab] at heqa
                  cases heqa
                  split
                  · rfl
                  · split
                    · rfl
                    · split
                      · rfl
                      · split
                        · rfl
                        · split
                          · rfl
                          · split
                            · rfl
                            · rfl

/-! A reference-explicit model of createBattle's shallow enemy copy.  In the
JS source, `enemies.map((e) => ({ ...e }))` builds a fresh top-level object
per template but copies the `stats` field by reference: battle enemy and
template share one mutable stats object.  Here a heap maps references to
Stats records and the enemy object holds a reference into it. -/

/-- A JS enemy object as createBattle receives it, with its stats field
rendered as a reference into the stats heap. -/
structure EnemyObjRef where
  id : String
  name : String
  element : Option String
  statsRef : ℕ
  statusEffects : List String
deriving DecidableEq

/-- The heap of mutable stats cells. -/
def StatsHeap : Type := ℕ → Stats

/-- The spread copy `enemies.map((e) => ({ ...e }))` of createBattle: a new
top-level object per element with the same field values, so the copy's
stats field is the very same reference. -/
def createBattleEnemies (templates : List EnemyObjRef) : List EnemyObjRef :=
  templates.map (fun e =>
    { id := e.id, name := e.name, element := e.element, statsRef := e.statsRef,
      statusEffects := e.statusEffects })

/-- Writing one stats cell in place. -/
def writeStats (h : StatsHeap) (r : ℕ) (s : Stats) : StatsHeap :=
  fun q => if q = r then s else h q

/-- The damage write of executeCommand performed through a unit's stats
reference: `target.stats.hp = Math.max(0, hp - amount)` then clampHp. -/
def applyDamageThroughRef (h : StatsHeap) (r : ℕ) (amount : ℤ) : StatsHeap :=
  writeStats h r (clampHp { h r with hp := max 0 ((h r).hp - amount) })

/-- The MP deduction of executeCommand performed through the source's stats
reference: `source.stats.mp = Math.max(0, mp - mpCost)`. -/
def applyMpCostThroughRef (h : StatsHeap) (r : ℕ) (mpCost : ℤ) : StatsHeap :=
  writeStats h r { h r with mp := max 0 ((h r).mp - mpCost) }

theorem statsRef_createBattleEnemies (templates : List EnemyObjRef) (i : ℕ)
    (hi : i < templates.length) (hi2 : i < (createBattleEnemies templates).length) :
    ((createBattleEnemies templates).get ⟨i, hi2⟩).statsRef
      = (templates.get ⟨i, hi⟩).statsRef := by
  unfold createBattleEnemies
  rw [List.get_map]

theorem writeStats_read_self (h : StatsHeap) (r : ℕ) (s : Stats) :
    writeStats h r s r = s := by
  unfold writeStats
  rw [if_pos rfl]

/-! Helper layer shared by the claim-level results. -/

/-- recomputeState as the spec words it: defeat when no party member has
hp > 0, else victory when no enemy has hp > 0, else in_progress. -/
def specRecomputeState (b : Battle) : BattlePhase :=
  if ¬ b.members.any isAlive then BattlePhase.defeat
  else if ¬ b.enemies.any isAlive then BattlePhase.victory
  else BattlePhase.in_progress

theorem recomputeState_eq_spec (b : Battle) : recomputeState b = specRecomputeState b := by
  unfold recomputeState specRecomputeState
  by_cases h1 : b.members.any isAlive = true <;> by_cases h2 : b.enemies.any isAlive = true <;>
    simp [h1, h2]

/-- Adding a status tag only when absent is idempotent on a unit. -/
theorem statusApply_idem (ability : Ability) (u : BattleUnit) :
    statusApply ability (statusApply ability u) = statusApply ability u := by
  unfold statusApply
  cases ability.statusEffect with
  | none => rfl
  | some se =>
    dsimp only
    by_cases h : u.statusEffects.contains se
    · rw [if_pos h, if_pos h]
    · rw [if_neg h]
      dsimp only
      rw [if_pos (show (u.statusEffects ++ [se]).contains se = true by simp)]

/-- What executeCommand does to the target of a resolved damage command
(power > 0, non-healing target type): the claimed amount is subtracted and
the result clamped into 0 .. maxHp. -/
theorem executeCommand_damage_hp (b : Battle) (cmd : BattleCommand) (ability : Ability)
    (aref : TurnRef) (sk tk : TurnKind) (src tgt : BattleUnit)
    (hst : b.state = BattlePhase.in_progress)
    (hab : lookupAbilityById cmd.abilityId = some ability)
    (hnf : cmd.abilityId ≠ some "flee")
    (href : activeTurnRef b = some aref)
    (hsid : cmd.sourceId = some aref.id)
    (hfs : findUnitInBattle b cmd.sourceId = some (sk, src))
    (hft : findUnitInBattle b cmd.targetId = some (tk, tgt))
    (hpow : 0 < ability.power)
    (hdmg : isHealingTargetType ability.targetType = false)
    (hmp : 0 < ability.mpCost → ability.mpCost ≤ src.stats.mp)
    (hmax : 0 ≤ tgt.stats.maxHp) :
    ∃ tgt2 : BattleUnit,
      findUnitInBattle (executeCommand b cmd) cmd.targetId = some (tk, tgt2)
      ∧ tgt2.stats.hp = max 0 (min tgt.stats.maxHp (tgt.stats.hp - specDamageAmount ability src tgt)) := by
  rw [executeCommand_resolves b cmd ability aref sk tk src tgt hst hab hnf href hsid hfs hft]
  obtain ⟨tgt2, src2, h1, _, h3, _, _, _, _, _⟩ :=
    executeResolved_run b cmd ability sk tk src tgt hst hfs hft hmp
  refine ⟨tgt2, h1, ?_⟩
  rw [h3, if_neg (show ¬(0 < ability.power ∧ isHealingTargetType ability.targetType = true) from by
      rintro ⟨_, hcontra⟩
      rw [hdmg] at hcontra
      exact Bool.false_ne_true hcontra),
    if_pos hpow, execAmount_damage_eq_spec ability src tgt hpow hdmg, clamp_max_zero _ _ hmax]

/-- What executeCommand does on a resolved healing command: the claimed
amount is added to the target's hp (clamped) and the source pays the MP
cost (floored at 0). -/
theorem executeCommand_heal_run (b : Battle) (cmd : BattleCommand) (ability : Ability)
    (aref : TurnRef) (sk tk : TurnKind) (src tgt : BattleUnit)
    (hst : b.state = BattlePhase.in_progress)
    (hab : lookupAbilityById cmd.abilityId = some ability)
    (hnf : cmd.abilityId ≠ some "flee")
    (href : activeTurnRef b = some aref)
    (hsid : cmd.sourceId = some aref.id)
    (hfs : findUnitInBattle b cmd.sourceId = some (sk, src))
    (hft : findUnitInBattle b cmd.targetId = some (tk, tgt))
    (hpow : 0 < ability.power)
    (hheal : isHealingTargetType ability.targetType = true)
    (hmp : 0 < ability.mpCost → ability.mpCost ≤ src.stats.mp) :
    ∃ tgt2 src2 : BattleUnit,
      findUnitInBattle (executeCommand b cmd) cmd.targetId = some (tk, tgt2)
      ∧ findUnitInBattle (executeCommand b cmd) cmd.sourceId = some (sk, src2)
      ∧ tgt2.stats.hp = max 0 (min tgt.stats.maxHp (tgt.stats.hp + specHealAmount ability src tgt))
      ∧ src2.stats.mp =
          (if 0 < ability.mpCost then max 0 (src.stats.mp - ability.mpCost) else src.stats.mp) := by
  rw [executeCommand_resolves b cmd ability aref sk tk src tgt hst hab hnf href hsid hfs hft]
  obtain ⟨tgt2, src2, h1, h2, h3, _, _, h6, _, _⟩ :=
    executeResolved_run b cmd ability sk tk src tgt hst hfs hft hmp
  refine ⟨tgt2, src2, h1, h2, ?_, h6⟩
  rw [h3, if_pos (And.intro hpow hheal), execAmount_heal_eq_spec ability src tgt hpow hheal]

/-- What executeCommand does to the target's status set on a resolved
command whose ability carries a status tag. -/
theorem executeCommand_status_run (b : Battle) (cmd : BattleCommand) (ability : Ability)
    (aref : TurnRef) (sk tk : TurnKind) (src tgt : BattleUnit)
    (hst : b.state = BattlePhase.in_progress)
    (hab : lookupAbilityById cmd.abilityId = some ability)
    (hnf : cmd.abilityId ≠ some "flee")
    (href : activeTurnRef b = some aref)
    (hsid : cmd.sourceId = some aref.id)
    (hfs : findUnitInBattle b cmd.sourceId = some (sk, src))
    (hft : findUnitInBattle b cmd.targetId = some (tk, tgt))
    (hmp : 0 < ability.mpCost → ability.mpCost ≤ src.stats.mp)
    (se : String)
    (hse : ability.statusEffect = some se) :
    ∃ tgt2 : BattleUnit,
      findUnitInBattle (executeCommand b cmd) cmd.targetId = some (tk, tgt2)
      ∧ tgt2.statusEffects =
          (if tgt.statusEffects.contains se then tgt.statusEffects
           else tgt.statusEffects ++ [se]) := by
  rw [executeCommand_resolves b cmd ability aref sk tk src tgt hst hab hnf href hsid hfs hft]
  obtain ⟨tgt2, src2, h1, _, _, _, h5, _, _, _⟩ :=
    executeResolved_run b cmd ability sk tk src tgt hst hfs hft hmp
  refine ⟨tgt2, h1, ?_⟩
  rw [h5, hse]

/-- After a resolved command the state is the recomputed one and the log
grows by the action line plus the terminal line exactly when the state
turned terminal. -/
theorem executeCommand_state_log (b : Battle) (cmd : BattleCommand) (ability : Ability)
    (aref : TurnRef) (sk tk : TurnKind) (src tgt : BattleUnit)
    (hst : b.state = BattlePhase.in_progress)
    (hab : lookupAbilityById cmd.abilityId = some ability)
    (hnf : cmd.abilityId ≠ some "flee")
    (href : activeTurnRef b = some aref)
    (hsid : cmd.sourceId = some aref.id)
    (hfs : findUnitInBattle b cmd.sourceId = some (sk, src))
    (hft : findUnitInBattle b cmd.targetId = some (tk, tgt))
    (hmp : 0 < ability.mpCost → ability.mpCost ≤ src.stats.mp) :
    (executeCommand b cmd).state = recomputeState (executeCommand b cmd)
    ∧ ∃ line : String,
        (executeCommand b cmd).log = b.log ++ [line] ++
          (if (executeCommand b cmd).state = BattlePhase.victory then ["Victory!"]
           else if (executeCommand b cmd).state = BattlePhase.defeat then ["Defeat."]
           else []) := by
  rw [executeCommand_resolves b cmd ability aref sk tk src tgt hst hab hnf href hsid hfs hft]
  obtain ⟨tgt2, src2, _, _, _, _, _, _, h7, h8⟩ :=
    executeResolved_run b cmd ability sk tk src tgt hst hfs hft hmp
  exact ⟨h7, h8⟩

/-! Concrete fixtures for the witnesses and counterexamples. -/

def mkStats (hp maxHp mp maxMp str dfn mag spd spi lck : ℤ) : Stats :=
  ⟨hp, maxHp, mp, maxMp, str, dfn, mag, spd, spi, lck⟩

def tHero : BattleUnit := ⟨"c1", "Hero", none, [], mkStats 10 10 0 0 10 0 1 10 0 0, []⟩

def tGoblin : BattleUnit := ⟨"e1", "Goblin", none, [], mkStats 20 20 10 10 10 0 10 1 0 0, []⟩

def tBattle1 : Battle := createBattle "b1" "party1" "player1" [tHero] [tGoblin]

def cmdAttack : BattleCommand := ⟨some "ability", some "c1", some "e1", some "basic_attack"⟩

def abBasicAttack : Ability := ⟨"basic_attack", "Attack", "NULL", 0, "enemy_single", 4, none, none, 1⟩

def tGoblinW : BattleUnit := ⟨"e1", "Goblin", none, [], mkStats 6 20 0 0 0 0 0 1 0 0, []⟩

def tBattleW : Battle := createBattle "bw" "party1" "player1" [tHero] [tGoblinW]

def tGaleCaster : BattleUnit := ⟨"c1", "Mira", none, [], mkStats 10 10 10 10 1 0 10 10 0 0, []⟩

def tGaleTarget : BattleUnit := ⟨"e1", "Wisp", none, [], mkStats 40 40 0 0 0 0 0 1 0 0, []⟩

def tBattle5 : Battle := createBattle "b5" "party1" "player1" [tGaleCaster] [tGaleTarget]

def galeCmd : BattleCommand := ⟨some "ability", some "c1", some "e1", some "aeromancer_gale_sweep"⟩

def cmdFlee : BattleCommand := ⟨some "ability", some "c1", some "c1", some "flee"⟩

def offTurnCmd : BattleCommand := ⟨some "ability", some "e1", some "e1", some "basic_attack"⟩

def tHealer : BattleUnit := ⟨"c1", "Lysa", none, [], mkStats 10 10 10 10 1 0 10 10 0 0, []⟩

def tAlly : BattleUnit := ⟨"c2", "Ally", none, [], mkStats 5 30 0 0 1 0 1 1 0 0, []⟩

def tDummy : BattleUnit := ⟨"e1", "Dummy", none, [], mkStats 1 1 0 0 0 0 0 0 0 0, []⟩

def tBattle2 : Battle := createBattle "b2" "party1" "player1" [tHealer, tAlly] [tDummy]

def cmdMend : BattleCommand := ⟨some "ability", some "c1", some "c2", some "sage_mend"⟩

def abMend : Ability := ⟨"sage_mend", "Mend", "LIGHT", 5, "ally_single", 12, none, some ["SAGE"], 1⟩

def tThalen : BattleUnit := ⟨"c1", "Thalen", none, [], mkStats 10 10 10 10 1 0 10 10 0 0, []⟩

def tBandit : BattleUnit := ⟨"e1", "Bandit", none, [], mkStats 30 30 0 0 0 0 0 1 0 0, []⟩

def tBattle4 : Battle := createBattle "b4" "party1" "player1" [tThalen] [tBandit]

def cmdHex : BattleCommand := ⟨some "ability", some "c1", some "e1", some "umbramancer_venom_hex"⟩

def abHex : Ability := ⟨"umbramancer_venom_hex", "Venom Hex", "SHADOW", 4, "enemy_single", 6, some "POISON", some ["UMBRAMANCER"], 1⟩

def pSlow : BattleUnit := ⟨"p_slow", "S", none, [], mkStats 10 10 0 0 0 0 0 1 0 0, []⟩

def pFast : BattleUnit := ⟨"p_fast", "F", none, [], mkStats 10 10 0 0 0 0 0 9 0 0, []⟩

def eMid : BattleUnit := ⟨"e_mid", "M", none, [], mkStats 10 10 0 0 0 0 0 5 0 0, []⟩

def eFast : BattleUnit := ⟨"e_fast", "E", none, [], mkStats 10 10 0 0 0 0 0 8 0 0, []⟩

def c8A : BattleUnit := ⟨"A", "A", none, [], mkStats 1 10 20 20 1 0 1 9 0 0, []⟩

def c8B : BattleUnit := ⟨"B", "B", none, [], mkStats 0 10 0 0 0 0 0 5 0 0, []⟩

def c8E1 : BattleUnit := ⟨"E1", "E1", none, [], mkStats 1 10 0 0 0 0 0 1 0 0, []⟩

def c8E2 : BattleUnit := ⟨"E2", "E2", none, [], mkStats 0 10 0 0 0 0 0 3 0 0, []⟩

def c8B0 : Battle := createBattle "b8" "party1" "player1" [c8A, c8B] [c8E1, c8E2]

def c8Ops : List BattleOp :=
  [ BattleOp.exec ⟨some "ability", some "A", some "B", some "sage_mend"⟩,
    BattleOp.exec ⟨some "ability", some "A", some "E2", some "sage_mend"⟩,
    BattleOp.exec ⟨some "ability", some "A", some "E1", some "basic_attack"⟩,
    BattleOp.exec ⟨some "ability", some "A", some "A", some "basic_attack"⟩ ]

def slimeTemplate : EnemyObjRef := ⟨"slime", "Slime", none, 0, []⟩

def exHeap : StatsHeap := fun _ => mkStats 40 40 8 8 0 0 0 1 0 0

/-! The claims. -/

/-- C1: on an in_progress battle, a resolved damage command — a known
non-flee ability with power > 0 whose target type is none of ally_single /
party / self, the source being the active unit, source and target found,
enough MP — subtracts from the target's hp exactly
specDamageAmount = max(1, floor((offense - mitigation) * mult)), with
offense = (strength of the source if the ability element is NULL else its
magic) + power, mitigation = (defense of the target if NULL else its
spirit) * 0.6 and mult the weakness-table multiplier
(1.25 / 0.75 / 0.9 / 1), and the resulting hp is clamped into 0 .. maxHp. -/
theorem claim_C1 (b : Battle) (cmd : BattleCommand) (ability : Ability)
    (aref : TurnRef) (sk tk : TurnKind) (src tgt : BattleUnit)
    (hst : b.state = BattlePhase.in_progress)
    (hab : lookupAbilityById cmd.abilityId = some ability)
    (hnf : cmd.abilityId ≠ some "flee")
    (href : activeTurnRef b = some aref)
    (hsid : cmd.sourceId = some aref.id)
    (hfs : findUnitInBattle b cmd.sourceId = some (sk, src))
    (hft : findUnitInBattle b cmd.targetId = some (tk, tgt))
    (hpow : 0 < ability.power)
    (hdmg : isHealingTargetType ability.targetType = false)
    (hmp : 0 < ability.mpCost → ability.mpCost ≤ src.stats.mp)
    (hmax : 0 ≤ tgt.stats.maxHp) :
    ∃ tgt2 : BattleUnit,
      findUnitInBattle (executeCommand b cmd) cmd.targetId = some (tk, tgt2)
      ∧ tgt2.stats.hp
          = max 0 (min tgt.stats.maxHp (tgt.stats.hp - specDamageAmount ability src tgt)) :=
  executeCommand_damage_hp b cmd ability aref sk tk src tgt
    hst hab hnf href hsid hfs hft hpow hdmg hmp hmax

/-- C1 witness: the Hero's basic attack on the Goblin lands for
14 = (10 + 4) - 0, leaving the Goblin at hp 6. -/
theorem claim_C1_witness :
    (∃ tgt2 : BattleUnit,
        findUnitInBattle (executeCommand tBattle1 cmdAttack) cmdAttack.targetId
            = some (TurnKind.enemy, tgt2)
        ∧ tgt2.stats.hp
            = max 0 (min tGoblin.stats.maxHp
                (tGoblin.stats.hp - specDamageAmount abBasicAttack tHero tGoblin)))
    ∧ (findUnitInBattle (executeCommand tBattle1 cmdAttack) (some "e1")).map
        (fun f => f.2.stats.hp) = some 6 :=
  ⟨claim_C1 tBattle1 cmdAttack abBasicAttack ⟨TurnKind.party, "c1"⟩ TurnKind.party TurnKind.enemy
      tHero tGoblin (by decide) (by decide) (by decide) (by decide) (by decide) (by decide)
      (by decide) (by decide) (by decide) (by decide) (by decide),
    by decide⟩

/-- C2: calculateInitialTurnOrder lists exactly the hp > 0 combatants (a
permutation of the living party refs followed by the living enemy refs),
sorted by the descending-speed / ascending-tie-key comparator on
"p_" + id and "e_" + id, as a pure function of its input; on the spec's
example it returns exactly the required order. -/
theorem claim_C2 :
    (∀ members enemies : List BattleUnit,
        List.Perm (calculateInitialTurnOrder members enemies)
          ((members.filter isAlive).map (fun m => (⟨TurnKind.party, m.id⟩ : TurnRef))
            ++ (enemies.filter isAlive).map (fun e => (⟨TurnKind.enemy, e.id⟩ : TurnRef))))
    ∧ (∀ members enemies : List BattleUnit,
        List.Sorted turnEntryLE (sortedTurnEntries members enemies)
        ∧ calculateInitialTurnOrder members enemies
            = (sortedTurnEntries members enemies).map (fun e => e.ref))
    ∧ calculateInitialTurnOrder [pSlow, pFast] [eMid, eFast]
        = [⟨TurnKind.party, "p_fast"⟩, ⟨TurnKind.enemy, "e_fast"⟩,
           ⟨TurnKind.enemy, "e_mid"⟩, ⟨TurnKind.party, "p_slow"⟩] := by
  refine ⟨?_, fun members enemies => ⟨List.sorted_insertionSort turnEntryLE _, rfl⟩, by decide⟩
  intro members enemies
  have hperm :=
    (List.perm_insertionSort turnEntryLE (turnOrderEntries members enemies)).map
      (fun e : TurnEntry => e.ref)
  have heq : (turnOrderEntries members enemies).map (fun e : TurnEntry => e.ref)
      = (members.filter isAlive).map (fun m => (⟨TurnKind.party, m.id⟩ : TurnRef))
        ++ (enemies.filter isAlive).map (fun e => (⟨TurnKind.enemy, e.id⟩ : TurnRef)) := by
    rw [turnOrderEntries, List.map_append, List.map_map, List.map_map]
    rfl
  exact heq ▸ hperm

/-- C3: after any resolved command the state is recomputed exactly as the
spec says — defeat when no party member is alive (checked first, so a
mutual KO is defeat), else victory when no enemy is alive, else
in_progress — and the log grows by the one action line plus exactly one
Victory! line on a transition to victory or one Defeat. line on a
transition to defeat. -/
theorem claim_C3 (b : Battle) (cmd : BattleCommand) (ability : Ability)
    (aref : TurnRef) (sk tk : TurnKind) (src tgt : BattleUnit)
    (hst : b.state = BattlePhase.in_progress)
    (hab : lookupAbilityById cmd.abilityId = some ability)
    (hnf : cmd.abilityId ≠ some "flee")
    (href : activeTurnRef b = some aref)
    (hsid : cmd.sourceId = some aref.id)
    (hfs : findUnitInBattle b cmd.sourceId = some (sk, src))
    (hft : findUnitInBattle b cmd.targetId = some (tk, tgt))
    (hmp : 0 < ability.mpCost → ability.mpCost ≤ src.stats.mp) :
    (executeCommand b cmd).state = specRecomputeState (executeCommand b cmd)
    ∧ (∀ b2 : Battle, b2.members.any isAlive = false →
        specRecomputeState b2 = BattlePhase.defeat)
    ∧ (∃ line : String,
        (executeCommand b cmd).log = b.log ++ [line] ++
          (if (executeCommand b cmd).state = BattlePhase.victory then ["Victory!"]
           else if (executeCommand b cmd).state = BattlePhase.defeat then ["Defeat."]
           else [])) := by
  obtain ⟨h7, h8⟩ :=
    executeCommand_state_log b cmd ability aref sk tk src tgt hst hab hnf href hsid hfs hft hmp
  refine ⟨h7.trans (recomputeState_eq_spec _), ?_, h8⟩
  intro b2 hdead
  unfold specRecomputeState
  rw [if_pos (show ¬(b2.members.any isAlive = true) from by
    rw [hdead]; exact Bool.false_ne_true)]

/-- C3 witness: the attack that fells the last Goblin turns the state to
victory and appends exactly one Victory! line after the action line. -/
theorem claim_C3_witness :
    ((executeCommand tBattleW cmdAttack).state = specRecomputeState (executeCommand tBattleW cmdAttack)
      ∧ (∀ b2 : Battle, b2.members.any isAlive = false →
          specRecomputeState b2 = BattlePhase.defeat)
      ∧ (∃ line : String,
          (executeCommand tBattleW cmdAttack).log = tBattleW.log ++ [line] ++
            (if (executeCommand tBattleW cmdAttack).state = BattlePhase.victory then ["Victory!"]
             else if (executeCommand tBattleW cmdAttack).state = BattlePhase.defeat then ["Defeat."]
             else [])))
    ∧ (executeCommand tBattleW cmdAttack).state = BattlePhase.victory
    ∧ (executeCommand tBattleW cmdAttack).log =
        ["Battle bw created.", "Battle started.", "Hero used Attack on Goblin -14 HP.", "Victory!"] :=
  ⟨claim_C3 tBattleW cmdAttack abBasicAttack ⟨TurnKind.party, "c1"⟩ TurnKind.party TurnKind.enemy
      tHero tGoblinW (by decide) (by decide) (by decide) (by decide) (by decide) (by decide)
      (by decide) (by decide),
    by decide, by decide⟩

/-- C4: a resolved heal command (power > 0, target type ally_single /
party / self) adds specHealAmount = max(1, floor((power + magic * 1.1) *
mult)) to the target's hp clamped into 0 .. maxHp, and deducts the MP cost
from the source exactly when the cost is positive, floored at 0; a source
that cannot pay a positive cost yields only a failure log line and no
other change to the battle. -/
theorem claim_C4 (b : Battle) (cmd : BattleCommand) (ability : Ability)
    (aref : TurnRef) (sk tk : TurnKind) (src tgt : BattleUnit)
    (hst : b.state = BattlePhase.in_progress)
    (hab : lookupAbilityById cmd.abilityId = some ability)
    (hnf : cmd.abilityId ≠ some "flee")
    (href : activeTurnRef b = some aref)
    (hsid : cmd.sourceId = some aref.id)
    (hfs : findUnitInBattle b cmd.sourceId = some (sk, src))
    (hft : findUnitInBattle b cmd.targetId = some (tk, tgt))
    (hpow : 0 < ability.power)
    (hheal : isHealingTargetType ability.targetType = true)
    (hmp : 0 < ability.mpCost → ability.mpCost ≤ src.stats.mp) :
    (∃ tgt2 src2 : BattleUnit,
        findUnitInBattle (executeCommand b cmd) cmd.targetId = some (tk, tgt2)
        ∧ findUnitInBattle (executeCommand b cmd) cmd.sourceId = some (sk, src2)
        ∧ tgt2.stats.hp
            = max 0 (min tgt.stats.maxHp (tgt.stats.hp + specHealAmount ability src tgt))
        ∧ src2.stats.mp
            = (if 0 < ability.mpCost then max 0 (src.stats.mp - ability.mpCost) else src.stats.mp))
    ∧ (∀ (b' : Battle) (cmd' : BattleCommand) (ability' : Ability) (aref' : TurnRef)
        (sk' tk' : TurnKind) (src' tgt' : BattleUnit),
        b'.state = BattlePhase.in_progress →
        lookupAbilityById cmd'.abilityId = some ability' →
        cmd'.abilityId ≠ some "flee" →
        activeTurnRef b' = some aref' →
        cmd'.sourceId = some aref'.id →
        findUnitInBattle b' cmd'.sourceId = some (sk', src') →
        findUnitInBattle b' cmd'.targetId = some (tk', tgt') →
        0 < ability'.mpCost → src'.stats.mp < ability'.mpCost →
        executeCommand b' cmd' =
          { b' with log := b'.log ++
              [getUnitName (some src') ++ " tried " ++ ability'.name ++ " but lacked MP."] }) := by
  refine ⟨executeCommand_heal_run b cmd ability aref sk tk src tgt
    hst hab hnf href hsid hfs hft hpow hheal hmp, ?_⟩
  intro b' cmd' ability' aref' sk' tk' src' tgt' hst' hab' hnf' href' hsid' hfs' hft' hc' hlt'
  rw [executeCommand_resolves b' cmd' ability' aref' sk' tk' src' tgt'
    hst' hab' hnf' href' hsid' hfs' hft']
  exact executeResolved_lackedMP b' cmd' ability' sk' tk' src' tgt' hc' hlt'

/-- C4 witness: Mend from a magic-10 caster on an hp-5 / maxHp-30 ally
lands for 23, ending at hp 28, and the caster's mp drops 10 → 5. -/
theorem claim_C4_witness :
    ((∃ tgt2 src2 : BattleUnit,
        findUnitInBattle (executeCommand tBattle2 cmdMend) cmdMend.targetId
            = some (TurnKind.party, tgt2)
        ∧ findUnitInBattle (executeCommand tBattle2 cmdMend) cmdMend.sourceId
            = some (TurnKind.party, src2)
        ∧ tgt2.stats.hp
            = max 0 (min tAlly.stats.maxHp (tAlly.stats.hp + specHealAmount abMend tHealer tAlly))
        ∧ src2.stats.mp
            = (if 0 < abMend.mpCost then max 0 (tHealer.stats.mp - abMend.mpCost)
               else tHealer.stats.mp))
      ∧ (∀ (b' : Battle) (cmd' : BattleCommand) (ability' : Ability) (aref' : TurnRef)
          (sk' tk' : TurnKind) (src' tgt' : BattleUnit),
          b'.state = BattlePhase.in_progress →
          lookupAbilityById cmd'.abilityId = some ability' →
          cmd'.abilityId ≠ some "flee" →
          activeTurnRef b' = some aref' →
          cmd'.sourceId = some aref'.id →
          findUnitInBattle b' cmd'.sourceId = some (sk', src') →
          findUnitInBattle b' cmd'.targetId = some (tk', tgt') →
          0 < ability'.mpCost → src'.stats.mp < ability'.mpCost →
          executeCommand b' cmd' =
            { b' with log := b'.log ++
                [getUnitName (some src') ++ " tried " ++ ability'.name ++ " but lacked MP."] }))
    ∧ (findUnitInBattle (executeCommand tBattle2 cmdMend) (some "c2")).map
        (fun f => f.2.stats.hp) = some 28
    ∧ (findUnitInBattle (executeCommand tBattle2 cmdMend) (some "c1")).map
        (fun f => f.2.stats.mp) = some 5 :=
  ⟨claim_C4 tBattle2 cmdMend abMend ⟨TurnKind.party, "c1"⟩ TurnKind.party TurnKind.party
      tHealer tAlly (by decide) (by decide) (by decide) (by decide) (by decide) (by decide)
      (by decide) (by decide) (by decide) (by decide),
    by decide, by decide⟩

/-- C5: the validator is a pure check — by construction it returns only a
verdict record and leaves the battle and party untouched — a command whose
sourceId is not the active reference's id is always rejected, and every
rejection carries a non-empty human-readable reason string. -/
theorem claim_C5 (b : Battle) (pid : String) (cmd : BattleCommand)
    (hmm : ∀ ref : TurnRef, activeTurnRef b = some ref → cmd.sourceId ≠ some ref.id) :
    (validateBattleCommand b pid cmd).ok = false
    ∧ (∀ (b2 : Battle) (pid2 : String) (cmd2 : BattleCommand),
        validateBattleCommand b2 pid2 cmd2 = ⟨true, none⟩
        ∨ ((validateBattleCommand b2 pid2 cmd2).ok = false
            ∧ ∃ r : String, (validateBattleCommand b2 pid2 cmd2).reason = some r ∧ r ≠ "")) :=
  ⟨validateBattleCommand_sourceMismatch b pid cmd hmm,
   fun b2 pid2 cmd2 => validateBattleCommand_characterization b2 pid2 cmd2⟩

/-- C5 witness: a command issued for the Goblin while the Hero's turn is
active is rejected with the invalid-source reason. -/
theorem claim_C5_witness :
    ((validateBattleCommand tBattle1 "player1" offTurnCmd).ok = false
      ∧ (∀ (b2 : Battle) (pid2 : String) (cmd2 : BattleCommand),
          validateBattleCommand b2 pid2 cmd2 = ⟨true, none⟩
          ∨ ((validateBattleCommand b2 pid2 cmd2).ok = false
              ∧ ∃ r : String, (validateBattleCommand b2 pid2 cmd2).reason = some r ∧ r ≠ "")))
    ∧ (validateBattleCommand tBattle1 "player1" offTurnCmd).reason
        = some "invalid source for active turn" :=
  ⟨claim_C5 tBattle1 "player1" offTurnCmd (fun ref href => by
      cases Option.some.inj
        ((show activeTurnRef tBattle1 = some ⟨TurnKind.party, "c1"⟩ from by decide).symm.trans href)
      decide),
    by decide⟩

/-- C6: on an in_progress battle a flee command always produces exactly the
defeat state and one log line naming the fleeing unit — the full record
equality shows nothing else is resolved (no damage, heal, MP or status
change, no turn-order change). -/
theorem claim_C6 (b : Battle) (cmd : BattleCommand)
    (hst : b.state = BattlePhase.in_progress)
    (hfl : cmd.abilityId = some "flee") :
    executeCommand b cmd =
      { b with
        log := b.log ++
          [getUnitName ((findUnitInBattle b cmd.sourceId).map (fun f => f.2)) ++ " fled."]
        state := BattlePhase.defeat } := by
  unfold executeCommand
  rw [if_neg (show ¬(b.state ≠ BattlePhase.in_progress) from by
    rw [hst]; exact fun h => h rfl), hfl]
  rfl

/-- C6 witness: the Hero flees a fresh battle: state defeat, one
"Hero fled." line, full hp on both sides untouched. -/
theorem claim_C6_witness :
    executeCommand tBattle1 cmdFlee =
      { tBattle1 with
        log := tBattle1.log ++
          [getUnitName ((findUnitInBattle tBattle1 cmdFlee.sourceId).map (fun f => f.2)) ++ " fled."]
        state := BattlePhase.defeat }
    ∧ (executeCommand tBattle1 cmdFlee).state = BattlePhase.defeat
    ∧ (executeCommand tBattle1 cmdFlee).log =
        ["Battle b1 created.", "Battle started.", "Hero fled."] :=
  ⟨claim_C6 tBattle1 cmdFlee (by decide) (by decide), by decide, by decide⟩

/-- C7 counterexample: aeromancer_gale_sweep has targetType enemy_all, yet
executeCommand resolves it when executed directly — the named target takes
single-target damage 19 = 9 + 10, hp 40 → 21 — so the executor does not
reject party / enemy_all abilities. -/
theorem claim_C7_counterexample :
    (lookupAbilityById (some "aeromancer_gale_sweep")).map (fun a => a.targetType)
        = some "enemy_all"
    ∧ (findUnitInBattle (executeCommand tBattle5 galeCmd) (some "e1")).map
        (fun f => f.2.stats.hp) = some 21
    ∧ (executeCommand tBattle5 galeCmd).log =
        ["Battle b5 created.", "Battle started.", "Mira used Gale Sweep on Wisp -19 HP."] := by
  decide

/-- C7 (amended): the validator half of the claim holds — every command
whose ability has targetType party or enemy_all is rejected — but the
executor half does not: executeCommand resolves an enemy_all ability of
positive power as single-target damage on the named target. -/
theorem claim_C7 :
    (∀ (b : Battle) (pid : String) (cmd : BattleCommand) (ability : Ability),
        lookupAbilityById cmd.abilityId = some ability →
        (ability.targetType = "party" ∨ ability.targetType = "enemy_all") →
        (validateBattleCommand b pid cmd).ok = false)
    ∧ (∀ (b : Battle) (cmd : BattleCommand) (ability : Ability) (aref : TurnRef)
        (sk tk : TurnKind) (src tgt : BattleUnit),
        b.state = BattlePhase.in_progress →
        lookupAbilityById cmd.abilityId = some ability →
        cmd.abilityId ≠ some "flee" →
        activeTurnRef b = some aref →
        cmd.sourceId = some aref.id →
        findUnitInBattle b cmd.sourceId = some (sk, src) →
        findUnitInBattle b cmd.targetId = some (tk, tgt) →
        ability.targetType = "enemy_all" →
        0 < ability.power →
        (0 < ability.mpCost → ability.mpCost ≤ src.stats.mp) →
        0 ≤ tgt.stats.maxHp →
        ∃ tgt2 : BattleUnit,
          findUnitInBattle (executeCommand b cmd) cmd.targetId = some (tk, tgt2)
          ∧ tgt2.stats.hp
              = max 0 (min tgt.stats.maxHp (tgt.stats.hp - specDamageAmount ability src tgt))) := by
  refine ⟨fun b pid cmd ability hab htt =>
    validateBattleCommand_unsupportedTargetType b pid cmd ability hab htt, ?_⟩
  intro b cmd ability aref sk tk src tgt hst hab hnf href hsid hfs hft htt hpow hmp hmax
  exact executeCommand_damage_hp b cmd ability aref sk tk src tgt hst hab hnf href hsid hfs hft
    hpow (by rw [htt]; decide) hmp hmax

/-- C8 counterexample: from createBattle, four executeCommand calls — heal
the dead ally and the dead enemy back up (neither re-enters the turn
order), kill the last enemy in the order and then the acting unit itself —
leave turnOrder empty while the state is still in_progress, so the claimed
invariant does not survive every executeCommand step. -/
theorem claim_C8_counterexample :
    (applyBattleOps c8Ops c8B0).turnOrder = []
    ∧ (applyBattleOps c8Ops c8B0).state = BattlePhase.in_progress := by
  decide

/-- C8 (amended): createBattle establishes the invariant — a valid index
into a non-empty order, or an empty order only with a terminal state — and
every sequence of operations that ends in advanceTurn restores it; every
operation sequence preserves the weaker half (index validity and a
non-pending state), but an executeCommand can empty the order while the
battle stays in_progress, as the counterexample shows. -/
theorem claim_C8 (bid partyId playerId : String) (members enemies : List BattleUnit)
    (ops : List BattleOp) :
    battleTurnInvariant (createBattle bid partyId playerId members enemies)
    ∧ battleIndexInvariant (applyBattleOps ops (createBattle bid partyId playerId members enemies))
    ∧ battleTurnInvariant
        (applyBattleOps (ops ++ [BattleOp.advance])
          (createBattle bid partyId playerId members enemies)) := by
  have hidx := battleIndexInvariant_applyOps ops _
    (battleIndexInvariant_createBattle bid partyId playerId members enemies)
  refine ⟨battleTurnInvariant_createBattle bid partyId playerId members enemies, hidx, ?_⟩
  show battleTurnInvariant
    ((ops ++ [BattleOp.advance]).foldl applyBattleOp (createBattle bid partyId playerId members enemies))
  rw [List.foldl_append]
  exact battleTurnInvariant_advanceTurn _ hidx

/-- C9: status application is idempotent — statusApply twice is statusApply
once, a resolved command whose ability carries a status tag leaves the
target with the tag added only if absent, and casting the poisoning hex
twice leaves exactly one POISON tag. -/
theorem claim_C9 :
    (∀ (ability : Ability) (u : BattleUnit),
        statusApply ability (statusApply ability u) = statusApply ability u)
    ∧ (∀ (b : Battle) (cmd : BattleCommand) (ability : Ability) (aref : TurnRef)
        (sk tk : TurnKind) (src tgt : BattleUnit),
        b.state = BattlePhase.in_progress →
        lookupAbilityById cmd.abilityId = some ability →
        cmd.abilityId ≠ some "flee" →
        activeTurnRef b = some aref →
        cmd.sourceId = some aref.id →
        findUnitInBattle b cmd.sourceId = some (sk, src) →
        findUnitInBattle b cmd.targetId = some (tk, tgt) →
        (0 < ability.mpCost → ability.mpCost ≤ src.stats.mp) →
        ∀ se : String, ability.statusEffect = some se →
        ∃ tgt2 : BattleUnit,
          findUnitInBattle (executeCommand b cmd) cmd.targetId = some (tk, tgt2)
          ∧ tgt2.statusEffects =
              (if tgt.statusEffects.contains se then tgt.statusEffects
               else tgt.statusEffects ++ [se]))
    ∧ (findUnitInBattle (executeCommand (executeCommand tBattle4 cmdHex) cmdHex) (some "e1")).map
        (fun f => f.2.statusEffects) = some ["POISON"] := by
  refine ⟨statusApply_idem, ?_, by decide⟩
  intro b cmd ability aref sk tk src tgt hst hab hnf href hsid hfs hft hmp se hse
  exact executeCommand_status_run b cmd ability aref sk tk src tgt
    hst hab hnf href hsid hfs hft hmp se hse

/-- C10: the createBattle enemy copy is shallow — each copied enemy object
keeps the very same stats reference as the caller's template — so the
damage write (hp := max 0 (hp - amount), clamped) and the MP deduction
executeCommand performs through a battle enemy's stats are read back
through the template's stats reference. -/
theorem claim_C10 (templates : List EnemyObjRef) (i : ℕ)
    (hi : i < templates.length) (hi2 : i < (createBattleEnemies templates).length) :
    ((createBattleEnemies templates).get ⟨i, hi2⟩).statsRef = (templates.get ⟨i, hi⟩).statsRef
    ∧ (∀ (h : StatsHeap) (amount : ℤ),
        applyDamageThroughRef h ((createBattleEnemies templates).get ⟨i, hi2⟩).statsRef amount
            ((templates.get ⟨i, hi⟩).statsRef)
          = clampHp { h ((templates.get ⟨i, hi⟩).statsRef) with
              hp := max 0 ((h ((templates.get ⟨i, hi⟩).statsRef)).hp - amount) })
    ∧ (∀ (h : StatsHeap) (c : ℤ),
        applyMpCostThroughRef h ((createBattleEnemies templates).get ⟨i, hi2⟩).statsRef c
            ((templates.get ⟨i, hi⟩).statsRef)
          = { h ((templates.get ⟨i, hi⟩).statsRef) with
              mp := max 0 ((h ((templates.get ⟨i, hi⟩).statsRef)).mp - c) }) := by
  have href := statsRef_createBattleEnemies templates i hi hi2
  refine ⟨href, fun h amount => ?_, fun h c => ?_⟩
  · rw [href]
    exact writeStats_read_self h _ _
  · rw [href]
    exact writeStats_read_self h _ _

/-- C10 witness: one slime template at heap cell 0: the copy keeps
reference 0, a 14-damage write through the copy leaves the template's
cell at hp 26, and a 6-MP deduction leaves its mp at 2. -/
theorem claim_C10_witness :
    ((((createBattleEnemies [slimeTemplate]).get ⟨0, by decide⟩).statsRef
        = ([slimeTemplate].get ⟨0, by decide⟩).statsRef)
      ∧ (∀ (h : StatsHeap) (amount : ℤ),
          applyDamageThroughRef h (((createBattleEnemies [slimeTemplate]).get ⟨0, by decide⟩)).statsRef amount
              ((([slimeTemplate].get ⟨0, by decide⟩)).statsRef)
            = clampHp { h ((([slimeTemplate].get ⟨0, by decide⟩)).statsRef) with
                hp := max 0 ((h ((([slimeTemplate].get ⟨0, by decide⟩)).statsRef)).hp - amount) })
      ∧ (∀ (h : StatsHeap) (c : ℤ),
          applyMpCostThroughRef h (((createBattleEnemies [slimeTemplate]).get ⟨0, by decide⟩)).statsRef c
              ((([slimeTemplate].get ⟨0, by decide⟩)).statsRef)
            = { h ((([slimeTemplate].get ⟨0, by decide⟩)).statsRef) with
                mp := max 0 ((h ((([slimeTemplate].get ⟨0, by decide⟩)).statsRef)).mp - c) }))
    ∧ ((applyDamageThroughRef exHeap slimeTemplate.statsRef 14) slimeTemplate.statsRef).hp = 26
    ∧ ((applyMpCostThroughRef exHeap slimeTemplate.statsRef 6) slimeTemplate.statsRef).mp = 2 :=
  ⟨claim_C10 [slimeTemplate] 0 (by decide) (by decide), by decide, by decide⟩
